import Mathlib

/-!
Verification development for the GitConnect GitHub API proxy/gateway layer.

The definitions below are shallow embeddings of the TypeScript source:
  * `backend/src/lib/githubClient.ts` (upstream request executor, rate-limit parsing),
  * `backend/src/lib/cache.ts` (in-memory response cache, cache keys),
  * `backend/src/routes/github.ts` (query canonicalization, error shaping),
  * `backend/src/middleware/auth.ts` (credential resolution and refresh),
  * `backend/src/judgment/githubData.ts` (context normalizer),
  * `backend/src/judgment/vertexJudgment.ts` (judgment invoker),
  * `backend/src/routes/judgment.ts` (judgment endpoint error handling).

Modelling conventions:
  * JavaScript numbers appearing as integers (HTTP statuses, epoch times,
    header values) are modelled as `Nat`/`Int`; JSON numbers as `Rat`.
  * JavaScript strings are Lean `String`s; where code-unit slicing matters
    (diff patches) we work on the underlying `List Char`.
  * `null`/`undefined` become `Option`; asynchronous external effects
    (fetch responses, OAuth refresh outcomes, model replies) become
    explicit inputs; state writes become explicit output lists.
-/

namespace GitConnect

/-- A JSON value, as produced by `JSON.parse`.  Object fields are kept in
insertion order; numbers are modelled as rationals. -/
inductive Json where
  | null : Json
  | bool (b : Bool) : Json
  | num (q : Rat) : Json
  | str (s : String) : Json
  | arr (elems : List Json) : Json
  | obj (fields : List (String × Json)) : Json

/-- JavaScript object member lookup on parsed JSON: last assignment wins
(`JSON.parse` keeps the last duplicate key).  Non-objects have no members. -/
def jsonLookup (fields : List (String × Json)) (key : String) : Option Json :=
  (fields.reverse.find? (fun e => e.1 == key)).map (fun e => e.2)

/-- `x.k` member access: `undefined` (`none`) when absent or when `x` is not
an object. -/
def jfield (j : Json) (key : String) : Option Json :=
  match j with
  | Json.obj fields => jsonLookup fields key
  | _ => none

/-- JavaScript truthiness of a parsed JSON value. -/
def jsTruthy : Json → Bool
  | Json.null => false
  | Json.bool b => b
  | Json.num q => q != 0
  | Json.str s => s != ""
  | Json.arr _ => true
  | Json.obj _ => true

/-- `x ?? d` on a member access result, where `undefined`/`null` fall back. -/
def jcoalesce (v : Option Json) (d : Json) : Json :=
  match v with
  | some Json.null => d
  | some j => j
  | none => d

/-! ## Header parsing (`githubClient.ts`: `parseHeaderInt`, `parseRateLimit`) -/

def isDigitChar (c : Char) : Bool := '0' ≤ c ∧ c ≤ '9'

/-- Numeric value of a list of decimal digit characters (most significant
first), as accumulated by a left fold. -/
def digitsToNat (ds : List Char) : Nat :=
  ds.foldl (fun a c => a * 10 + (c.toNat - 48)) 0

/-- Leading decimal-digit run of a character list, or `none` when the list
does not start with a digit. -/
def leadingNat (cs : List Char) : Option (Nat × List Char) :=
  let ds := cs.takeWhile isDigitChar
  if ds = [] then none else some (digitsToNat ds, cs.dropWhile isDigitChar)

def isJsWhitespace (c : Char) : Bool :=
  c = ' ' ∨ c = '\t' ∨ c = '\n' ∨ c = '\r' ∨ c = '\x0c' ∨ c = '\x0b'

/-- `Number.parseInt(s, 10)`: skip leading whitespace, read an optional
sign and then leading decimal digits; `NaN` (here `none`) when no digit
follows. -/
def parseIntJS (s : String) : Option Int :=
  let cs := s.data.dropWhile isJsWhitespace
  match cs with
  | '-' :: rest => (leadingNat rest).map (fun p => -(p.1 : Int))
  | '+' :: rest => (leadingNat rest).map (fun p => (p.1 : Int))
  | _ => (leadingNat cs).map (fun p => (p.1 : Int))

/-- `parseHeaderInt` from `githubClient.ts`: falsy header values (absent or
empty) give `null`; otherwise `Number.parseInt` with a finiteness check. -/
def parseHeaderInt (value : Option String) : Option Int :=
  match value with
  | none => none
  | some s => if s = "" then none else parseIntJS s

/-- The response headers read by `parseRateLimit`. -/
structure HeaderBag where
  xRateLimitLimit : Option String := none
  xRateLimitRemaining : Option String := none
  xRateLimitReset : Option String := none
  retryAfterHeader : Option String := none
  linkHeader : Option String := none
deriving DecidableEq

/-- `GitHubRateLimitMeta` from `githubClient.ts`. -/
structure GitHubRateLimitMeta where
  limit : Option Int
  remaining : Option Int
  reset : Option Int
  retryAfter : Option Int
  link : Option String
deriving DecidableEq

/-- JavaScript falsiness of a `number | null` value (`null` or `0`). -/
def jsFalsyOptInt (v : Option Int) : Bool :=
  match v with
  | none => true
  | some n => n == 0

/-- `parseRateLimit(headers, status)` from `githubClient.ts`.  `nowSec`
stands for `Math.ceil(Date.now() / 1000)` at the time of the call. -/
def parseRateLimit (h : HeaderBag) (status : Nat) (nowSec : Int) : GitHubRateLimitMeta :=
  let limit := parseHeaderInt h.xRateLimitLimit
  let remaining := parseHeaderInt h.xRateLimitRemaining
  let reset := parseHeaderInt h.xRateLimitReset
  let retryAfter := parseHeaderInt h.retryAfterHeader
  if jsFalsyOptInt retryAfter ∧ ¬ jsFalsyOptInt reset ∧ status = 429 then
    let delta := max 0 (reset.getD 0 - nowSec)
    { limit := limit, remaining := remaining, reset := reset,
      retryAfter := some delta, link := h.linkHeader }
  else
    { limit := limit, remaining := remaining, reset := reset,
      retryAfter := retryAfter, link := h.linkHeader }

/-! ## Upstream request executor (`githubClient.ts`: `githubRequest`) -/

/-- The error payload attached to a failed upstream result
(`data ?? rawBody`): either the parsed JSON body or the raw body text. -/
inductive GhPayload where
  | json (j : Json) : GhPayload
  | text (s : String) : GhPayload

/-- One raw upstream HTTP response, as observed by a single fetch attempt.
`parsedJson` models the outcome of `JSON.parse(rawBody)` for a non-empty
body (`none` when parsing throws). -/
structure AttemptResponse where
  status : Nat
  headers : HeaderBag
  rawBody : String
  parsedJson : Option Json

/-- `GitHubResponse` from `githubClient.ts`. -/
structure GitHubResponse where
  statusCode : Nat
  ok : Bool
  data : Option Json
  rawBody : Option String
  rateLimit : GitHubRateLimitMeta
  githubError : Option GhPayload

/-- `response.ok`: HTTP status in the inclusive range 200–299. -/
def statusOk (status : Nat) : Bool := 200 ≤ status ∧ status ≤ 299

/-- Whether a parsed `data` value is JavaScript-nullish (`null` or
`undefined`), as tested by `data ?? rawBody`. -/
def dataNullish (data : Option Json) : Bool :=
  match data with
  | none => true
  | some Json.null => true
  | some _ => false

/-- Build the per-attempt `GitHubResponse` record exactly as the body of the
retry loop does (body text read, JSON decode attempt, rate-limit parse). -/
def mkAttemptResult (a : AttemptResponse) (nowSec : Int) : GitHubResponse :=
  let data := if a.rawBody = "" then none else a.parsedJson
  { statusCode := a.status
    ok := statusOk a.status
    data := data
    rawBody := if a.rawBody = "" then none else some a.rawBody
    rateLimit := parseRateLimit a.headers a.status nowSec
    githubError :=
      if statusOk a.status then none
      else if dataNullish data then some (GhPayload.text a.rawBody)
      else some (GhPayload.json (data.getD Json.null)) }

/-- `isRateLimitStatus` from `githubClient.ts`. -/
def isRateLimitStatus (status : Nat) (rateLimit : GitHubRateLimitMeta) : Bool :=
  status == 429 || (status == 403 && rateLimit.remaining == some 0)

/-- `shouldRetry` from `githubClient.ts`: transient 5xx statuses. -/
def shouldRetry (status : Nat) : Bool := 500 ≤ status ∧ status < 600

def DEFAULT_MAX_RETRIES : Nat := 3
def BASE_DELAY_MS : Nat := 300
def JITTER_MS : Nat := 100

/-- The executor's observable behaviour: the returned result, how many
fetch attempts were made, and each backoff sleep in milliseconds. -/
structure ExecTrace where
  result : GitHubResponse
  attemptsUsed : Nat
  sleeps : List Int

/-- Fallback result used when the loop is exited without a response (the
`lastResponse ?? {...}` tail of `githubRequest`; unreachable from the
top-level entry point). -/
def emptyFallback : GitHubResponse :=
  { statusCode := 0, ok := false, data := none, rawBody := none
    rateLimit := { limit := none, remaining := none, reset := none,
                   retryAfter := none, link := none }
    githubError := none }

/-- The retry loop of `githubRequest`.  `resp i` is the upstream response to
the `i`-th fetch attempt, `jit i` models `jitter(i)` (a random value in
`[0, JITTER_MS * (i+1))`), `nowSec i` the clock at attempt `i`, and
`remaining` the number of loop iterations left (`maxRetries + 1 - attempt`). -/
def githubRequestLoop (resp : Nat → AttemptResponse) (jit : Nat → Nat)
    (nowSec : Nat → Int) (maxRetries : Nat) :
    Nat → Nat → ExecTrace
  | _, 0 => { result := emptyFallback, attemptsUsed := 0, sleeps := [] }
  | attempt, r + 1 =>
    let a := resp attempt
    let result := mkAttemptResult a (nowSec attempt)
    if result.ok then
      { result := result, attemptsUsed := attempt + 1, sleeps := [] }
    else if isRateLimitStatus a.status result.rateLimit then
      if attempt = maxRetries then
        { result := result, attemptsUsed := attempt + 1, sleeps := [] }
      else
        let retryAfterMs := (result.rateLimit.retryAfter.getD 1) * 1000
        let t := githubRequestLoop resp jit nowSec maxRetries (attempt + 1) r
        { result := t.result, attemptsUsed := t.attemptsUsed,
          sleeps := (retryAfterMs + (jit attempt : Int)) :: t.sleeps }
    else if shouldRetry a.status ∧ attempt < maxRetries then
      let backoffMs := (BASE_DELAY_MS : Int) * 2 ^ attempt + (jit attempt : Int)
      let t := githubRequestLoop resp jit nowSec maxRetries (attempt + 1) r
      { result := t.result, attemptsUsed := t.attemptsUsed,
        sleeps := backoffMs :: t.sleeps }
    else
      { result := result, attemptsUsed := attempt + 1, sleeps := [] }

/-- `githubRequest` (observable part): run the retry loop from attempt 0
with `maxRetries + 1` available iterations. -/
def githubRequestModel (resp : Nat → AttemptResponse) (jit : Nat → Nat)
    (nowSec : Nat → Int) (maxRetries : Nat := DEFAULT_MAX_RETRIES) : ExecTrace :=
  githubRequestLoop resp jit nowSec maxRetries 0 (maxRetries + 1)

/-! ## Response cache (`cache.ts`) -/

def DEFAULT_TTL_MS : Int := 60000
def USER_PROFILE_TTL_MS : Int := 30000
def DEFAULT_CACHE_TTL_MS : Int := 60000

structure CacheValue (α : Type) where
  value : α
  expiresAt : Int

/-- The in-memory cache's `Map`, modelled as a partial key/value function. -/
structure InMemoryCache (α : Type) where
  store : String → Option (CacheValue α)

/-- `cache.set(key, value, { ttlMs })`: absolute expiry `now + ttlMs`
(default 60 000 ms). -/
def cacheSet {α : Type} (c : InMemoryCache α) (key : String) (v : α)
    (ttlMs : Option Int) (now : Int) : InMemoryCache α :=
  let expiresAt := now + ttlMs.getD DEFAULT_TTL_MS
  ⟨fun k => if k = key then some ⟨v, expiresAt⟩ else c.store k⟩

/-- `cache.get(key)`: returns the value when present and unexpired; evicts
and returns nothing when the expiry has been reached. -/
def cacheGet {α : Type} (c : InMemoryCache α) (key : String) (now : Int) :
    Option α × InMemoryCache α :=
  match c.store key with
  | none => (none, c)
  | some entry =>
    if entry.expiresAt ≤ now then
      (none, ⟨fun k => if k = key then none else c.store k⟩)
    else
      (some entry.value, c)

/-- `cache.delete(key)`. -/
def cacheDelete {α : Type} (c : InMemoryCache α) (key : String) : InMemoryCache α :=
  ⟨fun k => if k = key then none else c.store k⟩

/-! ## Query canonicalization and cache keys (`routes/github.ts`, `cache.ts`) -/

/-- A validated query parameter value (`string | number | boolean`); numbers
produced by the validation schemas are integers. -/
inductive QVal where
  | str (s : String) : QVal
  | num (n : Int) : QVal
  | bool (b : Bool) : QVal
deriving DecidableEq

/-- Lowercase hexadecimal digit for `n < 16`. -/
def hexDigit (n : Nat) : Char :=
  if n < 10 then Char.ofNat (48 + n) else Char.ofNat (87 + n)

/-- `JSON.stringify` escaping of one character inside a string literal. -/
def escapeChar (c : Char) : List Char :=
  if c = '"' then ['\\', '"']
  else if c = '\\' then ['\\', '\\']
  else if c.toNat < 32 then
    if c = '\x08' then ['\\', 'b']
    else if c = '\x09' then ['\\', 't']
    else if c = '\x0a' then ['\\', 'n']
    else if c = '\x0c' then ['\\', 'f']
    else if c = '\x0d' then ['\\', 'r']
    else ['\\', 'u', '0', '0', hexDigit (c.toNat / 16), hexDigit (c.toNat % 16)]
  else [c]

/-- `JSON.stringify` rendering of a string literal (quotes and escapes). -/
def renderStr (s : String) : List Char :=
  '"' :: (s.data.flatMap escapeChar ++ ['"'])

/-- Decimal digits of a natural number, most significant first. -/
def natChars (n : Nat) : List Char :=
  go n []
where
  go (n : Nat) (acc : List Char) : List Char :=
    if h : n < 10 then Char.ofNat (48 + n) :: acc
    else go (n / 10) (Char.ofNat (48 + n % 10) :: acc)
  termination_by n
  decreasing_by exact Nat.div_lt_self (by omega) (by omega)

/-- `String(n)` / `JSON.stringify(n)` for an integer-valued number. -/
def intChars : Int → List Char
  | Int.ofNat m => natChars m
  | Int.negSucc m => '-' :: natChars (m + 1)

/-- `JSON.stringify` rendering of one query parameter value. -/
def renderQVal : QVal → List Char
  | QVal.str s => renderStr s
  | QVal.num n => intChars n
  | QVal.bool b => if b then "true".data else "false".data

/-- One `"key":value` member of the canonical JSON object. -/
def renderEntry (e : String × QVal) : List Char :=
  renderStr e.1 ++ ':' :: renderQVal e.2

/-- Comma-separated members of the canonical JSON object. -/
def renderEntriesGo : List (String × QVal) → List Char
  | [] => []
  | [e] => renderEntry e
  | e :: rest => renderEntry e ++ ',' :: renderEntriesGo rest

/-- `JSON.stringify` of an object with the given fields in order. -/
def jsonStringifyObj (l : List (String × QVal)) : List Char :=
  '\x7b' :: (renderEntriesGo l ++ ['\x7d'])

/-- Comparison used by `serializeQuery`'s `.sort(([a], [b]) =>
a.localeCompare(b))`, modelled as character-wise string comparison (the
two orders agree on the ASCII parameter names the schemas forward). -/
def keyLE (a b : String × QVal) : Prop := a.1 ≤ b.1

instance : DecidableRel keyLE := fun a b => inferInstanceAs (Decidable (a.1 ≤ b.1))

/-- `serializeQuery(query)` from `routes/github.ts`: drop nullish values,
sort the remaining entries by key, and `JSON.stringify` the resulting
object.  The input is the entry list of the validated query object (keys
are therefore distinct); `none` values model `undefined`/`null`. -/
def serializeQuery (query : List (String × Option QVal)) : String :=
  let entries := query.filterMap (fun e => e.2.map (fun v => (e.1, v)))
  let sorted := List.insertionSort keyLE entries
  ⟨jsonStringifyObj sorted⟩

/-- `String(part)` for a cache-key part. -/
def qvalToString : QVal → String
  | QVal.str s => s
  | QVal.num n => ⟨intChars n⟩
  | QVal.bool b => if b then "true" else "false"

/-- `buildCacheKey(parts)` from `cache.ts`: `'_'` for nullish parts,
`String(part)` otherwise, joined with `"::"`. -/
def buildCacheKey (parts : List (Option QVal)) : String :=
  String.intercalate "::" (parts.map (fun p =>
    match p with
    | none => "_"
    | some v => qvalToString v))

/-- Cache key construction of the `/repos/:owner/:repo/pulls` handler:
namespace tag, identity, path parameters, canonical query. -/
def pullsCacheKey (userId owner repo : String)
    (query : List (String × Option QVal)) : String :=
  buildCacheKey [some (QVal.str "pulls"), some (QVal.str userId),
    some (QVal.str owner), some (QVal.str repo),
    some (QVal.str (serializeQuery query))]

/-! Decoders inverting the canonical JSON rendering.  These are proof
devices only: round-trip lemmas about them establish that the canonical
serialization is injective on object entry lists with a fixed key
skeleton. -/

/-- Value of one lowercase hexadecimal digit character. -/
def hexVal (c : Char) : Option Nat :=
  if '0' ≤ c ∧ c ≤ '9' then some (c.toNat - 48)
  else if 'a' ≤ c ∧ c ≤ 'f' then some (c.toNat - 87)
  else none

/-- Character denoted by a single-character escape. -/
def codeOf (e : Char) : Option Char :=
  if e = '"' then some '"'
  else if e = '\\' then some '\\'
  else if e = 'b' then some '\x08'
  else if e = 't' then some '\x09'
  else if e = 'n' then some '\x0a'
  else if e = 'f' then some '\x0c'
  else if e = 'r' then some '\x0d'
  else none

/-- Decode an escaped string body up to its closing quote, returning the
decoded characters and the remainder of the input. -/
def unescape : List Char → Option (List Char × List Char)
  | [] => none
  | c :: rest =>
    if c = '"' then some ([], rest)
    else if c = '\\' then
      match rest with
      | 'u' :: '0' :: '0' :: d1 :: d2 :: rest3 =>
        match hexVal d1, hexVal d2 with
        | some v1, some v2 =>
          (unescape rest3).map (fun p => (Char.ofNat (16 * v1 + v2) :: p.1, p.2))
        | _, _ => none
      | e :: rest2 =>
        (codeOf e).bind (fun d =>
          (unescape rest2).map (fun p => (d :: p.1, p.2)))
      | [] => none
    else (unescape rest).map (fun p => (c :: p.1, p.2))
  termination_by l => l.length
  decreasing_by all_goals simp_arith [List.length]

/-- Decode a leading decimal numeral. -/
def decodeNat (l : List Char) : Option (Nat × List Char) := leadingNat l

/-- Decode one rendered query value. -/
def decodeVal : List Char → Option (QVal × List Char)
  | [] => none
  | c :: rest =>
    if c = '"' then (unescape rest).map (fun p => (QVal.str ⟨p.1⟩, p.2))
    else if c = 't' then
      match rest with
      | 'r' :: 'u' :: 'e' :: r => some (QVal.bool true, r)
      | _ => none
    else if c = 'f' then
      match rest with
      | 'a' :: 'l' :: 's' :: 'e' :: r => some (QVal.bool false, r)
      | _ => none
    else if c = '-' then
      (decodeNat rest).map (fun p => (QVal.num (-(p.1 : Int)), p.2))
    else
      (decodeNat (c :: rest)).map (fun p => (QVal.num (p.1 : Int), p.2))

/-- Decode one rendered `"key":value` member. -/
def decodeEntry (l : List Char) : Option ((String × QVal) × List Char) :=
  match l with
  | c :: rest =>
    if c = '"' then
      (unescape rest).bind (fun pk =>
        match pk.2 with
        | ':' :: rest2 => (decodeVal rest2).map (fun pv => ((⟨pk.1⟩, pv.1), pv.2))
        | _ => none)
    else none
  | [] => none

/-! ## Credential resolver (`middleware/auth.ts`: `authenticateRequest`) -/

/-- The token-bearing fields of a stored `User` row.  Timestamps are epoch
milliseconds. -/
structure StoredUser where
  id : String
  personalAccessToken : Option String
  githubRefreshToken : Option String
  tokenExpiresAt : Option Int
  refreshTokenExpiresAt : Option Int
  githubTokenScope : Option String
  githubTokenType : Option String
  tokenUpdatedAt : Option Int

/-- `GitHubAppTokenPayload`: the result of a successful OAuth refresh. -/
structure RefreshedTokens where
  accessToken : String
  refreshToken : Option String
  tokenType : Option String
  scope : Option String
  tokenExpiresAt : Option Int
  refreshTokenExpiresAt : Option Int

/-- Outcome of the external `refreshUserTokens` call. -/
inductive RefreshOutcome where
  | ok (t : RefreshedTokens) : RefreshOutcome
  | oauthErr : RefreshOutcome
  | otherErr : RefreshOutcome

/-- The `data` record passed to the single `prisma.user.update` call after a
successful refresh.  Fields built with `?? undefined` are `Option`s whose
`none` means the field is omitted from the update; `githubRefreshToken` is
always written (`?? null`). -/
structure TokenUpdateWrite where
  personalAccessToken : String
  tokenUpdatedAt : Int
  tokenExpiresAt : Option Int
  refreshTokenExpiresAt : Option Int
  githubTokenScope : Option String
  githubTokenType : Option String
  githubRefreshToken : Option String
deriving DecidableEq

/-- Result of the middleware: an error response or the GitHub token handed
to the downstream handler. -/
inductive AuthOutcome where
  | reject (status : Nat) (code : String) : AuthOutcome
  | proceed (githubToken : String) : AuthOutcome
deriving DecidableEq

/-- Observable behaviour of one `authenticateRequest` run: its outcome, the
User-store writes it performed, and how many upstream refresh calls it
made. -/
structure AuthTrace where
  outcome : AuthOutcome
  writes : List TokenUpdateWrite
  refreshCalls : Nat
deriving DecidableEq

/-- Result of `jwt.verify` on the bearer token. -/
inductive JwtResult where
  | invalid : JwtResult
  | badPayload : JwtResult
  | ok (userId : String) : JwtResult

/-- `tokenNeedsRefresh(expiresAt, bufferMs = 60_000)`. -/
def tokenNeedsRefresh (expiresAt : Option Int) (now : Int)
    (bufferMs : Int := 60000) : Bool :=
  match expiresAt with
  | none => false
  | some e => now ≥ e - bufferMs

/-- `decryptPersonalAccessToken` (the source's stub: `encryptedToken || null`). -/
def decryptPersonalAccessToken (encryptedToken : String) : Option String :=
  if encryptedToken = "" then none else some encryptedToken

/-- JavaScript truthiness of a `string | null` value. -/
def strTruthy (s : Option String) : Bool :=
  match s with
  | none => false
  | some v => v != ""

/-- `authenticateRequest`, with external effects as inputs: `bearer` is the
extracted bearer token, `jwtSecret` the configured secret, `jwtVerify` the
verification result, `userLookup` the User row found for the payload's
user id, `credsConfigured` whether GitHub OAuth client credentials are
configured, `refresh` the outcome of the (at most one) refresh call, and
`now` the current epoch-millisecond time. -/
def authenticateRequestModel (bearer : Option String) (jwtSecret : Option String)
    (jwtVerify : JwtResult) (userLookup : Option StoredUser)
    (credsConfigured : Bool) (refresh : RefreshOutcome) (now : Int) : AuthTrace :=
  match bearer with
  | none => ⟨AuthOutcome.reject 401 "NO_TOKEN", [], 0⟩
  | some _ =>
    match jwtSecret with
    | none => ⟨AuthOutcome.reject 500 "SERVER_MISCONFIGURED", [], 0⟩
    | some _ =>
      match jwtVerify with
      | JwtResult.invalid => ⟨AuthOutcome.reject 401 "INVALID_TOKEN", [], 0⟩
      | JwtResult.badPayload => ⟨AuthOutcome.reject 401 "INVALID_TOKEN", [], 0⟩
      | JwtResult.ok _ =>
        match userLookup with
        | none => ⟨AuthOutcome.reject 401 "USER_NOT_FOUND", [], 0⟩
        | some user =>
          if ¬ strTruthy user.personalAccessToken then
            ⟨AuthOutcome.reject 403 "GITHUB_TOKEN_MISSING", [], 0⟩
          else
            match decryptPersonalAccessToken (user.personalAccessToken.getD "") with
            | none => ⟨AuthOutcome.reject 403 "GITHUB_TOKEN_INVALID", [], 0⟩
            | some githubToken =>
              if tokenNeedsRefresh user.tokenExpiresAt now then
                if ¬ strTruthy user.githubRefreshToken then
                  ⟨AuthOutcome.reject 401 "GITHUB_TOKEN_EXPIRED", [], 0⟩
                else if ¬ credsConfigured then
                  ⟨AuthOutcome.reject 500 "SERVER_MISCONFIGURED", [], 0⟩
                else
                  match refresh with
                  | RefreshOutcome.ok t =>
                    let w : TokenUpdateWrite :=
                      { personalAccessToken := t.accessToken
                        tokenUpdatedAt := now
                        tokenExpiresAt := t.tokenExpiresAt
                        refreshTokenExpiresAt := t.refreshTokenExpiresAt
                        githubTokenScope := t.scope
                        githubTokenType := t.tokenType
                        githubRefreshToken := t.refreshToken }
                    ⟨AuthOutcome.proceed t.accessToken, [w], 1⟩
                  | RefreshOutcome.oauthErr =>
                    ⟨AuthOutcome.reject 401 "GITHUB_TOKEN_REFRESH_FAILED", [], 1⟩
                  | RefreshOutcome.otherErr =>
                    ⟨AuthOutcome.reject 500 "GITHUB_TOKEN_REFRESH_FAILED", [], 1⟩
              else
                ⟨AuthOutcome.proceed githubToken, [], 0⟩

/-! ## Context normalizer (`judgment/githubData.ts`) -/

/-- `x?.k` optional member access on a possibly-nullish value. -/
def jfieldOpt (v : Option Json) (key : String) : Option Json :=
  match v with
  | none => none
  | some Json.null => none
  | some j => jfield j key

/-- `Boolean(x)` for a member access result. -/
def jsTruthyOpt (v : Option Json) : Bool :=
  match v with
  | none => false
  | some j => jsTruthy j

/-- `FetchLimits` (all fields optional in the request body). -/
structure FetchLimits where
  maxReviews : Option Nat := none
  maxComments : Option Nat := none
  maxFiles : Option Nat := none
  maxCommits : Option Nat := none
  maxCommitComments : Option Nat := none
  patchCharacterLimit : Option Nat := none

/-- `Required<FetchLimits>` after merging with `DEFAULT_LIMITS`. -/
structure ResolvedLimits where
  maxReviews : Nat
  maxComments : Nat
  maxFiles : Nat
  maxCommits : Nat
  maxCommitComments : Nat
  patchCharacterLimit : Nat
deriving DecidableEq

/-- `DEFAULT_LIMITS` from `githubData.ts`. -/
def DEFAULT_LIMITS : ResolvedLimits :=
  { maxReviews := 40, maxComments := 50, maxFiles := 60, maxCommits := 50,
    maxCommitComments := 30, patchCharacterLimit := 8000 }

/-- `{ ...DEFAULT_LIMITS, ...limits }`. -/
def resolveLimits (l : FetchLimits) : ResolvedLimits :=
  { maxReviews := l.maxReviews.getD DEFAULT_LIMITS.maxReviews
    maxComments := l.maxComments.getD DEFAULT_LIMITS.maxComments
    maxFiles := l.maxFiles.getD DEFAULT_LIMITS.maxFiles
    maxCommits := l.maxCommits.getD DEFAULT_LIMITS.maxCommits
    maxCommitComments := l.maxCommitComments.getD DEFAULT_LIMITS.maxCommitComments
    patchCharacterLimit := l.patchCharacterLimit.getD DEFAULT_LIMITS.patchCharacterLimit }

/-- The truncation marker appended to an over-long diff patch. -/
def truncMarker : List Char := "\n... [truncated]".data

/-- `NormalizedFileChange`.  Unvalidated copies keep their raw JSON value
(`Option Json`, `none` = `undefined`); the patch is a code-unit list. -/
structure NormalizedFileChange where
  filename : Option Json
  status : Option Json
  additions : Json
  deletions : Json
  changes : Json
  patch : Option (List Char)

/-- `normalizeFileChange(file, patchLimit)`: truncate an over-long string
patch with the marker; spread the patch field only when truthy. -/
def normalizeFileChange (file : Json) (patchLimit : Nat) : NormalizedFileChange :=
  let patch : Option (List Char) :=
    match jfield file "patch" with
    | some (Json.str s) =>
      some (if patchLimit < s.data.length
            then s.data.take patchLimit ++ truncMarker
            else s.data)
    | _ => none
  { filename := jfield file "filename"
    status := jfield file "status"
    additions := jcoalesce (jfield file "additions") (Json.num 0)
    deletions := jcoalesce (jfield file "deletions") (Json.num 0)
    changes := jcoalesce (jfield file "changes") (Json.num 0)
    patch :=
      match patch with
      | some p => if p = [] then none else some p
      | none => none }

structure NormalizedReview where
  id : Option Json
  state : Option Json
  body : Json
  submittedAt : Json
  authorLogin : Json

def normalizeReview (review : Json) : NormalizedReview :=
  { id := jfield review "id"
    state := jfield review "state"
    body := jcoalesce (jfield review "body") Json.null
    submittedAt := jcoalesce (jfield review "submitted_at") Json.null
    authorLogin := jcoalesce (jfieldOpt (jfield review "user") "login") Json.null }

structure NormalizedIssueComment where
  id : Option Json
  body : Json
  authorLogin : Json
  createdAt : Option Json
  updatedAt : Json

def normalizeIssueComment (comment : Json) : NormalizedIssueComment :=
  { id := jfield comment "id"
    body := jcoalesce (jfield comment "body") (Json.str "")
    authorLogin := jcoalesce (jfieldOpt (jfield comment "user") "login") Json.null
    createdAt := jfield comment "created_at"
    updatedAt := jcoalesce (jfield comment "updated_at") Json.null }

structure NormalizedPullRequestCommit where
  sha : Option Json
  message : Json
  authorLogin : Json
  authorName : Json
  authoredDate : Json
  committedDate : Json

def normalizePullRequestCommit (commit : Json) : NormalizedPullRequestCommit :=
  { sha := jfield commit "sha"
    message := jcoalesce (jfieldOpt (jfield commit "commit") "message") (Json.str "")
    authorLogin := jcoalesce (jfieldOpt (jfield commit "author") "login") Json.null
    authorName := jcoalesce (jfieldOpt (jfieldOpt (jfield commit "commit") "author") "name") Json.null
    authoredDate := jcoalesce (jfieldOpt (jfieldOpt (jfield commit "commit") "author") "date") Json.null
    committedDate := jcoalesce (jfieldOpt (jfieldOpt (jfield commit "commit") "committer") "date") Json.null }

structure NormalizedPullRequest where
  number : Option Json
  title : Option Json
  state : Option Json
  draft : Bool
  body : Json
  createdAt : Option Json
  updatedAt : Option Json
  merged : Bool
  mergeable : Json
  additions : Json
  deletions : Json
  changedFiles : Json
  authorLogin : Json
  baseBranch : Json
  headBranch : Json
  labels : List Json
  requestedReviewers : List Json

/-- `x.labels.map(l => l.name ?? '').filter(Boolean)` when an array. -/
def labelNames (v : Option Json) : List Json :=
  match v with
  | some (Json.arr xs) =>
    (xs.map (fun l => jcoalesce (jfield l "name") (Json.str ""))).filter jsTruthy
  | _ => []

/-- `x.map(r => r?.login).filter(Boolean)` when an array. -/
def reviewerLogins (v : Option Json) : List Json :=
  match v with
  | some (Json.arr xs) =>
    (xs.map (fun r => jfieldOpt (some r) "login")).filterMap (fun o =>
      match o with
      | some j => if jsTruthy j then some j else none
      | none => none)
  | _ => []

def normalizePullRequest (pr : Json) : NormalizedPullRequest :=
  { number := jfield pr "number"
    title := jfield pr "title"
    state := jfield pr "state"
    draft := jsTruthyOpt (jfield pr "draft")
    body := jcoalesce (jfield pr "body") Json.null
    createdAt := jfield pr "created_at"
    updatedAt := jfield pr "updated_at"
    merged := jsTruthyOpt (jfield pr "merged_at")
    mergeable := jcoalesce (jfield pr "mergeable") Json.null
    additions := jcoalesce (jfield pr "additions") (Json.num 0)
    deletions := jcoalesce (jfield pr "deletions") (Json.num 0)
    changedFiles := jcoalesce (jfield pr "changed_files") (Json.num 0)
    authorLogin := jcoalesce (jfieldOpt (jfield pr "user") "login") Json.null
    baseBranch := jcoalesce (jfieldOpt (jfield pr "base") "ref") Json.null
    headBranch := jcoalesce (jfieldOpt (jfield pr "head") "ref") Json.null
    labels := labelNames (jfield pr "labels")
    requestedReviewers := reviewerLogins (jfield pr "requested_reviewers") }

structure NormalizedCommitStats where
  additions : Json
  deletions : Json
  total : Json

structure NormalizedCommit where
  sha : Option Json
  message : Json
  authorName : Json
  authorEmail : Json
  authoredDate : Json
  committerName : Json
  committerEmail : Json
  committedDate : Json
  stats : Option NormalizedCommitStats
  files : List NormalizedFileChange

def normalizeCommit (commit : Json) (patchLimit fileLimit : Nat) : NormalizedCommit :=
  { sha := jfield commit "sha"
    message := jcoalesce (jfieldOpt (jfield commit "commit") "message") (Json.str "")
    authorName := jcoalesce (jfieldOpt (jfieldOpt (jfield commit "commit") "author") "name") Json.null
    authorEmail := jcoalesce (jfieldOpt (jfieldOpt (jfield commit "commit") "author") "email") Json.null
    authoredDate := jcoalesce (jfieldOpt (jfieldOpt (jfield commit "commit") "author") "date") Json.null
    committerName := jcoalesce (jfieldOpt (jfieldOpt (jfield commit "commit") "committer") "name") Json.null
    committerEmail := jcoalesce (jfieldOpt (jfieldOpt (jfield commit "commit") "committer") "email") Json.null
    committedDate := jcoalesce (jfieldOpt (jfieldOpt (jfield commit "commit") "committer") "date") Json.null
    stats :=
      if jsTruthyOpt (jfield commit "stats") then
        some { additions := jcoalesce (jfieldOpt (jfield commit "stats") "additions") (Json.num 0)
               deletions := jcoalesce (jfieldOpt (jfield commit "stats") "deletions") (Json.num 0)
               total := jcoalesce (jfieldOpt (jfield commit "stats") "total") (Json.num 0) }
      else none
    files :=
      match jfield commit "files" with
      | some (Json.arr xs) => (xs.take fileLimit).map (fun f => normalizeFileChange f patchLimit)
      | _ => [] }

structure NormalizedCommitComment where
  id : Option Json
  body : Json
  authorLogin : Json
  path : Json
  position : Option Rat
  createdAt : Option Json
  updatedAt : Json

def normalizeCommitComment (comment : Json) : NormalizedCommitComment :=
  { id := jfield comment "id"
    body := jcoalesce (jfield comment "body") (Json.str "")
    authorLogin := jcoalesce (jfieldOpt (jfield comment "user") "login") Json.null
    path := jcoalesce (jfield comment "path") Json.null
    position :=
      match jfield comment "position" with
      | some (Json.num q) => some q
      | _ => none
    createdAt := jfield comment "created_at"
    updatedAt := jcoalesce (jfield comment "updated_at") Json.null }

structure PullRequestContext where
  repository : String
  identifier : String
  pullRequest : NormalizedPullRequest
  reviews : List NormalizedReview
  files : List NormalizedFileChange
  comments : List NormalizedIssueComment
  commits : List NormalizedPullRequestCommit

/-- The raw JSON returned by the five upstream fetches of
`fetchPullRequestContext` (each already past `fetchGitHubJson`). -/
structure PullFetchData where
  pull : Json
  reviews : List Json
  files : List Json
  comments : List Json
  commits : List Json

/-- `fetchPullRequestContext`, after its five upstream fetches succeeded:
truncate each of the fetched collections and normalize. -/
def fetchPullRequestContextModel (owner repo : String) (pullNumber : Nat)
    (limits : FetchLimits) (d : PullFetchData) : PullRequestContext :=
  let L := resolveLimits limits
  { repository := owner ++ "/" ++ repo
    identifier := "PR-" ++ toString pullNumber
    pullRequest := normalizePullRequest d.pull
    reviews := (d.reviews.take L.maxReviews).map normalizeReview
    files := (d.files.take L.maxFiles).map (fun f => normalizeFileChange f L.patchCharacterLimit)
    comments := (d.comments.take L.maxComments).map normalizeIssueComment
    commits := (d.commits.take L.maxCommits).map normalizePullRequestCommit }

structure CommitContext where
  repository : String
  identifier : String
  commit : NormalizedCommit
  comments : List NormalizedCommitComment

/-- `fetchCommitContext`, after its two upstream fetches succeeded. -/
def fetchCommitContextModel (owner repo sha : String) (limits : FetchLimits)
    (commit : Json) (comments : List Json) : CommitContext :=
  let L := resolveLimits limits
  { repository := owner ++ "/" ++ repo
    identifier := "COMMIT-" ++ (sha.take 7)
    commit := normalizeCommit commit L.patchCharacterLimit L.maxFiles
    comments := (comments.take L.maxCommitComments).map normalizeCommitComment }

/-- `GitHubDataError`: message, upstream status and error payload captured
from the failed `GitHubResponse` (`githubError ?? rawBody`). -/
structure GitHubDataError where
  message : String
  statusCode : Nat
  githubError : Option GhPayload

def mkDataError (path : String) (r : GitHubResponse) : GitHubDataError :=
  { message := "GitHub request failed for " ++ path
    statusCode := r.statusCode
    githubError :=
      match r.githubError with
      | some e => some e
      | none => r.rawBody.map GhPayload.text }

/-- `fetchGitHubJson`: any non-ok response, and any ok response whose parsed
`data` is falsy, raises `GitHubDataError`. -/
def fetchGitHubJsonModel (path : String) (r : GitHubResponse) :
    Except GitHubDataError Json :=
  match r.data with
  | some d => if r.ok && jsTruthy d then Except.ok d else Except.error (mkDataError path r)
  | none => Except.error (mkDataError path r)

/-! ## Judgment invoker (`judgment/vertexJudgment.ts`) -/

inductive JudgmentDecision where
  | approve : JudgmentDecision
  | request_changes : JudgmentDecision
  | comment : JudgmentDecision
deriving DecidableEq

structure VerdictMeta where
  repository : String
  targetType : String
  identifier : String
deriving DecidableEq

/-- `LLMJudgmentResponse`: the validated judgment verdict. -/
structure LLMJudgmentResponse where
  decision : JudgmentDecision
  confidence : Rat
  summary : String
  keyFindings : List String
  risks : List String
  recommendedActions : List String
  metadata : VerdictMeta
deriving DecidableEq

/-- `z.string().min(n)`. -/
def zString (v : Option Json) (minLen : Nat) : Option String :=
  match v with
  | some (Json.str s) => if minLen ≤ s.length then some s else none
  | _ => none

/-- `z.array(z.string()).default([])`: absent gives `[]`; anything present
must be an array of strings. -/
def zStringArrayDefault (v : Option Json) : Option (List String) :=
  match v with
  | none => some []
  | some (Json.arr xs) =>
    xs.mapM (fun j => match j with | Json.str s => some s | _ => none)
  | some _ => none

/-- `z.number().min(0).max(1)`. -/
def zConfidence (v : Option Json) : Option Rat :=
  match v with
  | some (Json.num q) => if 0 ≤ q ∧ q ≤ 1 then some q else none
  | _ => none

/-- `z.enum(['approve', 'request_changes', 'comment'])`. -/
def zDecision (v : Option Json) : Option JudgmentDecision :=
  match v with
  | some (Json.str s) =>
    if s = "approve" then some JudgmentDecision.approve
    else if s = "request_changes" then some JudgmentDecision.request_changes
    else if s = "comment" then some JudgmentDecision.comment
    else none
  | _ => none

/-- `judgmentSchema.parse(parsedJson)`: `none` models a thrown `ZodError`. -/
def zodParseJudgment (j : Json) : Option LLMJudgmentResponse :=
  match j with
  | Json.obj _ =>
    match zDecision (jfield j "decision"), zConfidence (jfield j "confidence"),
        zString (jfield j "summary") 1, zStringArrayDefault (jfield j "keyFindings"),
        zStringArrayDefault (jfield j "risks"),
        zStringArrayDefault (jfield j "recommendedActions") with
    | some d, some c, some su, some kf, some rk, some ra =>
      match jfield j "metadata" with
      | some (Json.obj mfs) =>
        match zString (jsonLookup mfs "repository") 1,
            zString (jsonLookup mfs "targetType") 1,
            zString (jsonLookup mfs "identifier") 1 with
        | some rep, some tt, some idf =>
          some { decision := d, confidence := c, summary := su, keyFindings := kf,
                 risks := rk, recommendedActions := ra,
                 metadata := { repository := rep, targetType := tt, identifier := idf } }
        | _, _, _ => none
      | _ => none
    | _, _, _, _, _, _ => none
  | _ => none

/-- The context fields read while enriching a verdict. -/
structure ContextMeta where
  repository : String
  ctype : String
  identifier : String

/-- `a || b` on strings. -/
def strOr (a b : String) : String := if a = "" then b else a

/-- The `enriched` record built after schema validation. -/
def enrichJudgment (z : LLMJudgmentResponse) (ctx : ContextMeta) : LLMJudgmentResponse :=
  { z with metadata :=
      { repository := strOr z.metadata.repository ctx.repository
        targetType := strOr z.metadata.targetType ctx.ctype
        identifier := strOr z.metadata.identifier ctx.identifier } }

/-- Errors thrown by `generateJudgment`: `VertexConfigError` or
`VertexInvocationError` with its message. -/
inductive JudgmentError where
  | config : JudgmentError
  | invocation (message : String) : JudgmentError
deriving DecidableEq

/-- Outcome of the external `model.generateContent` call: an API failure, or
a reply whose joined-and-trimmed candidate text is `text` (`none` when the
candidate parts are missing) and whose `JSON.parse` outcome is `parsed`
(`Except.error` models a `SyntaxError`). -/
inductive VertexOutcome where
  | fail : VertexOutcome
  | reply (text : Option String) (parsed : Except Unit Json) : VertexOutcome

/-- `generateJudgment(context)`: configuration check, empty-output check,
JSON parse, schema validation, enrichment. -/
def generateJudgmentModel (configOk : Bool) (ctx : ContextMeta)
    (o : VertexOutcome) : Except JudgmentError LLMJudgmentResponse :=
  if ¬ configOk then Except.error JudgmentError.config
  else
    match o with
    | VertexOutcome.fail =>
      Except.error (JudgmentError.invocation "Failed to invoke Vertex AI for judgment.")
    | VertexOutcome.reply text parsed =>
      if ¬ strTruthy text then
        Except.error (JudgmentError.invocation "Vertex AI returned an empty response.")
      else
        match parsed with
        | Except.error _ =>
          Except.error (JudgmentError.invocation "Vertex AI response was not valid JSON.")
        | Except.ok j =>
          match zodParseJudgment j with
          | none =>
            Except.error (JudgmentError.invocation "Vertex AI response failed validation against schema.")
          | some z => Except.ok (enrichJudgment z ctx)

/-! ## Gateway error shaping (`routes/github.ts`: `handleGithubError`) -/

/-- The value assigned to the local `details` variable. -/
inductive DetailsBase where
  | fromJson (j : Json) : DetailsBase
  | msgWrap (s : String) : DetailsBase

/-- The `error.details` object of a gateway error response.
`retryAfterSec = some v` means the key is present with value `v`. -/
structure ErrorDetails where
  base : Option DetailsBase
  retryAfterSec : Option (Option Int)

/-- A gateway error response (status and `error` body; the mirrored
meta/pagination headers are outside the claims and not modelled). -/
structure GatewayErrorReply where
  httpStatus : Nat
  code : String
  message : String
  details : Option ErrorDetails

/-- `isRateLimitResponse(result)` from `routes/github.ts`. -/
def isRateLimitResponse (r : GitHubResponse) : Bool :=
  r.statusCode == 429 || (r.statusCode == 403 && r.rateLimit.remaining == some 0)

/-- `handleGithubError(res, result)` from `routes/github.ts`. -/
def handleGithubErrorModel (result : GitHubResponse) : GatewayErrorReply :=
  let status0 : Nat := if result.statusCode = 0 then 500 else result.statusCode
  let details0 : Option DetailsBase :=
    match result.githubError with
    | some (GhPayload.json (Json.arr xs)) => some (DetailsBase.fromJson (Json.arr xs))
    | some (GhPayload.json (Json.obj fs)) => some (DetailsBase.fromJson (Json.obj fs))
    | some (GhPayload.json (Json.str s)) => some (DetailsBase.msgWrap s)
    | some (GhPayload.text s) => some (DetailsBase.msgWrap s)
    | _ => none
  let message0 : String :=
    match details0 with
    | some (DetailsBase.fromJson (Json.obj fs)) =>
      match jsonLookup fs "message" with
      | some (Json.str m) => m
      | _ => "GitHub request failed"
    | some (DetailsBase.msgWrap s) => s
    | _ => "GitHub request failed"
  if isRateLimitResponse result then
    { httpStatus := 429, code := "GITHUB_RATE_LIMIT",
      message := "GitHub rate limit exceeded",
      details := some { base := details0, retryAfterSec := some result.rateLimit.retryAfter } }
  else if status0 = 404 then
    { httpStatus := status0, code := "NOT_FOUND",
      message := "GitHub resource not found",
      details := details0.map (fun b => { base := some b, retryAfterSec := none }) }
  else if status0 = 401 then
    { httpStatus := status0, code := "GITHUB_UNAUTHORIZED",
      message := "GitHub rejected the provided token",
      details := details0.map (fun b => { base := some b, retryAfterSec := none }) }
  else
    { httpStatus := status0, code := "GITHUB_ERROR", message := message0,
      details := details0.map (fun b => { base := some b, retryAfterSec := none }) }

/-! ## Judgment endpoint (`routes/judgment.ts`) -/

/-- A judgment endpoint reply. -/
inductive JudgmentReply where
  | success : JudgmentReply
  | err (httpStatus : Nat) (code : String) (message : String)
      (details : Option GhPayload) : JudgmentReply
  | errNoDetails (httpStatus : Nat) (code : String) : JudgmentReply

/-- Observable behaviour of one judgment request: the reply and whether the
generative model endpoint was actually called. -/
structure JudgmentTrace where
  reply : JudgmentReply
  modelInvoked : Bool

/-- `buildContext` for a commit target: the two `fetchGitHubJson` calls of
`fetchCommitContext` (`Promise.all` rejects with the first failure;
left-first here), then normalization. -/
def buildCommitContextResult (owner repo sha : String) (limits : FetchLimits)
    (commitResp commentsResp : GitHubResponse) :
    Except GitHubDataError CommitContext := do
  let commitPath := "/repos/" ++ owner ++ "/" ++ repo ++ "/commits/" ++ sha
  let commentsPath := "/repos/" ++ owner ++ "/" ++ repo ++ "/commits/" ++ sha ++ "/comments"
  let commit ← fetchGitHubJsonModel commitPath commitResp
  let comments ← fetchGitHubJsonModel commentsPath commentsResp
  let commentList := match comments with
    | Json.arr xs => xs
    | _ => []
  pure (fetchCommitContextModel owner repo sha limits commit commentList)

/-- The `POST /` judgment handler after validation and token resolution:
build the context, invoke the model, shape errors via `handleError`. -/
def judgmentRouteModel (ctxResult : Except GitHubDataError CommitContext)
    (configOk : Bool) (vertex : VertexOutcome) : JudgmentTrace :=
  match ctxResult with
  | Except.error e =>
    { reply := JudgmentReply.err 502 "GITHUB_FETCH_FAILED" e.message e.githubError
      modelInvoked := false }
  | Except.ok ctx =>
    let meta : ContextMeta :=
      { repository := ctx.repository, ctype := "commit", identifier := ctx.identifier }
    match generateJudgmentModel configOk meta vertex with
    | Except.ok _ => { reply := JudgmentReply.success, modelInvoked := configOk }
    | Except.error JudgmentError.config =>
      { reply := JudgmentReply.errNoDetails 500 "VERTEX_CONFIG_ERROR", modelInvoked := false }
    | Except.error (JudgmentError.invocation m) =>
      { reply := JudgmentReply.err 502 "VERTEX_INVOCATION_FAILED" m none, modelInvoked := configOk }

/-- Description of the parsed retry-after value as stated by the spec
sentence for claim C5: the reset-based computation applies exactly when
the response is a 429 carrying no `retry-after` header but carrying a
reset timestamp; in all other cases the value is the parsed `retry-after`
header. -/
def retryAfterClaim (h : HeaderBag) (status : Nat) (nowSec : Int) : Option Int :=
  if h.retryAfterHeader = none ∧ h.xRateLimitReset ≠ none ∧ status = 429 then
    some (max 0 ((parseHeaderInt h.xRateLimitReset).getD 0 - nowSec))
  else
    parseHeaderInt h.retryAfterHeader

def c2WitnessUser : StoredUser :=
  { id := "u1", personalAccessToken := some "old", githubRefreshToken := some "r1",
    tokenExpiresAt := some 1030000, refreshTokenExpiresAt := none,
    githubTokenScope := none, githubTokenType := none, tokenUpdatedAt := none }

def c2WitnessTokens : RefreshedTokens :=
  { accessToken := "new", refreshToken := some "r2", tokenType := some "bearer",
    scope := some "repo", tokenExpiresAt := some 2000000,
    refreshTokenExpiresAt := some 3000000 }

def c2WitnessWrite : TokenUpdateWrite :=
  { personalAccessToken := "new", tokenUpdatedAt := 1000000,
    tokenExpiresAt := some 2000000, refreshTokenExpiresAt := some 3000000,
    githubTokenScope := some "repo", githubTokenType := some "bearer",
    githubRefreshToken := some "r2" }

/-- A concrete well-formed model reply used by the claim C8 witness. -/
def c8WitnessJson : Json :=
  Json.obj [("decision", Json.str "approve"), ("confidence", Json.num 1),
    ("summary", Json.str "fine"),
    ("metadata", Json.obj [("repository", Json.str "o/r"),
      ("targetType", Json.str "commit"), ("identifier", Json.str "COMMIT-ab")])]

/-- The verdict `generateJudgment` produces for `c8WitnessJson`. -/
def c8WitnessVerdict : LLMJudgmentResponse :=
  { decision := JudgmentDecision.approve, confidence := 1, summary := "fine",
    keyFindings := [], risks := [], recommendedActions := [],
    metadata := { repository := "o/r", targetType := "commit",
                  identifier := "COMMIT-ab" } }

/-- Upstream commit path used by `fetchCommitContext`. -/
def commitFetchPath (owner repo sha : String) : String :=
  "/repos/" ++ owner ++ "/" ++ repo ++ "/commits/" ++ sha

/-- Payload surfaced for a failed fetch (`githubError ?? rawBody`). -/
def surfacedPayload (r : GitHubResponse) : Option GhPayload :=
  match r.githubError with
  | some e => some e
  | none => r.rawBody.map GhPayload.text

/-- Rate-limit snapshot parsed at attempt `i`. -/
def attemptRL (resp : Nat → AttemptResponse) (nowSec : Nat → Int) (i : Nat) :
    GitHubRateLimitMeta :=
  parseRateLimit (resp i).headers (resp i).status (nowSec i)

/-- Whether attempt `i`'s response is treated as rate-limited. -/
def rateLimitedAt (resp : Nat → AttemptResponse) (nowSec : Nat → Int) (i : Nat) : Bool :=
  isRateLimitStatus (resp i).status (attemptRL resp nowSec i)

/-- The deterministic part of the backoff before retrying attempt `i`:
`retryAfter * 1000` for a rate-limited response (1 s when no retry-after
was derived), `300 ms * 2^i` for a transient 5xx. -/
def baseDelay (resp : Nat → AttemptResponse) (nowSec : Nat → Int) (i : Nat) : Int :=
  if rateLimitedAt resp nowSec i then ((attemptRL resp nowSec i).retryAfter.getD 1) * 1000
  else (BASE_DELAY_MS : Int) * 2 ^ i

/-- The full sleep performed after attempt `i` when it is retried. -/
def expectedSleep (resp : Nat → AttemptResponse) (jit : Nat → Nat)
    (nowSec : Nat → Int) (i : Nat) : Int :=
  baseDelay resp nowSec i + jit i

/-- Classification of the attempt that terminates the retry loop: a 2xx
success, a rate-limited or transient failure with the attempt budget
exhausted, or any other failure (returned immediately). -/
def finalAttemptOk (resp : Nat → AttemptResponse) (nowSec : Nat → Int)
    (maxRetries i : Nat) : Prop :=
  statusOk (resp i).status = true ∨
  (statusOk (resp i).status = false ∧ rateLimitedAt resp nowSec i = true ∧ i = maxRetries) ∨
  (statusOk (resp i).status = false ∧ rateLimitedAt resp nowSec i = false ∧
    shouldRetry (resp i).status = true ∧ i = maxRetries) ∨
  (statusOk (resp i).status = false ∧ rateLimitedAt resp nowSec i = false ∧
    shouldRetry (resp i).status = false)

instance : IsTotal (String × QVal) keyLE := ⟨fun a b => le_total a.1 b.1⟩

instance : IsTrans (String × QVal) keyLE := ⟨fun _ _ _ h1 h2 => le_trans h1 h2⟩

/-- Strict key order, used to identify the two sorted entry lists. -/
def keyLT (a b : String × QVal) : Prop := a.1 < b.1

instance : IsAntisymm (String × QVal) keyLT :=
  ⟨fun _ _ h1 h2 => absurd h2 (lt_asymm h1)⟩

/-! ## Theorems -/

/-- Claim C3: `set(key, value, ttlMs)` stores the value with absolute
expiry `now + ttlMs` (default 60 000 ms; the profile endpoint's TTL
constant is 30 000 ms); `get(key)` returns the stored value exactly when
an entry exists whose expiry is strictly in the future, evicts when the
expiry has been reached, and never returns an entry at or past its
expiry. -/
theorem C3_cache_semantics :
    (∀ (α : Type) (c : InMemoryCache α) (key : String) (v : α) (ttl : Option Int) (now : Int),
      (cacheSet c key v ttl now).store key =
        some { value := v, expiresAt := now + ttl.getD DEFAULT_TTL_MS }) ∧
    DEFAULT_TTL_MS = 60000 ∧ USER_PROFILE_TTL_MS = 30000 ∧
    (∀ (α : Type) (c : InMemoryCache α) (key : String) (now : Int) (v : α),
      (cacheGet c key now).1 = some v ↔
        ∃ e, c.store key = some e ∧ e.value = v ∧ now < e.expiresAt) ∧
    (∀ (α : Type) (c : InMemoryCache α) (key : String) (now : Int) (e : CacheValue α),
      c.store key = some e → e.expiresAt ≤ now →
        (cacheGet c key now).1 = none ∧ (cacheGet c key now).2.store key = none) := by
  refine ⟨fun α c key v ttl now => by simp [cacheSet], rfl, rfl, ?_, ?_⟩
  · intro α c key now v
    constructor
    · intro h
      unfold cacheGet at h
      split at h
      · simp at h
      · next e heq =>
        split at h
        · simp at h
        · next hexp =>
          simp only [Option.some.injEq] at h
          exact ⟨e, heq, h, by omega⟩
    · rintro ⟨e, hs, hv, hlt⟩
      unfold cacheGet
      rw [hs]
      simp [hv, show ¬ e.expiresAt ≤ now from by omega]
  · intro α c key now e hs hexp
    unfold cacheGet
    rw [hs]
    simp [hexp]

/-- Claim C3 witness: a freshly stored entry is readable before its default
expiry and evicted at it. -/
theorem C3_cache_semantics_witness :
    ((cacheSet (InMemoryCache.mk (fun _ => none)) "k" (5 : Nat) none 0).store "k" =
      some { value := 5, expiresAt := (0 : Int) + Option.getD none DEFAULT_TTL_MS }) ∧
    (cacheGet (cacheSet (InMemoryCache.mk (fun _ => none)) "k" (5 : Nat) none 0) "k" 60000).1 = none := by
  refine ⟨C3_cache_semantics.1 Nat _ "k" 5 none 0, ?_⟩
  exact (C3_cache_semantics.2.2.2.2 Nat _ "k" 60000 { value := 5, expiresAt := 60000 }
    (by simp [cacheSet, DEFAULT_TTL_MS]) (by norm_num)).1

/-- Claim C5 counterexample: a 429 response that does carry a `retry-after`
header with value `0` (and a reset timestamp) is given the reset-based
retry-after by the code, not the header's value `0` required by the
claim. -/
theorem C5_counterexample :
    (parseRateLimit { retryAfterHeader := some "0", xRateLimitReset := some "100" } 429 40).retryAfter
        = some 60 ∧
    retryAfterClaim { retryAfterHeader := some "0", xRateLimitReset := some "100" } 429 40
        = some 0 ∧
    (parseRateLimit { retryAfterHeader := some "0", xRateLimitReset := some "100" } 429 40).retryAfter
        ≠ retryAfterClaim { retryAfterHeader := some "0", xRateLimitReset := some "100" } 429 40 := by
  refine ⟨by decide, by decide, by decide⟩

/-- Claim C5 (amended): the reset-based computation `max 0 (reset − now)`
applies exactly when the status is 429, the parsed `retry-after` value is
falsy (header absent, unparsable, or equal to 0) and the parsed reset
value is a nonzero timestamp; in every other case the parsed `retry-after`
header value (or `null`) is returned unchanged, and the remaining snapshot
fields are always direct header parses. -/
theorem C5_parseRateLimit_retryAfter (h : HeaderBag) (status : Nat) (nowSec : Int) :
    ((jsFalsyOptInt (parseHeaderInt h.retryAfterHeader) ∧
      ¬ jsFalsyOptInt (parseHeaderInt h.xRateLimitReset) ∧ status = 429) →
      (parseRateLimit h status nowSec).retryAfter =
        some (max 0 ((parseHeaderInt h.xRateLimitReset).getD 0 - nowSec))) ∧
    (¬ (jsFalsyOptInt (parseHeaderInt h.retryAfterHeader) ∧
        ¬ jsFalsyOptInt (parseHeaderInt h.xRateLimitReset) ∧ status = 429) →
      (parseRateLimit h status nowSec).retryAfter = parseHeaderInt h.retryAfterHeader) ∧
    (parseRateLimit h status nowSec).limit = parseHeaderInt h.xRateLimitLimit ∧
    (parseRateLimit h status nowSec).remaining = parseHeaderInt h.xRateLimitRemaining ∧
    (parseRateLimit h status nowSec).reset = parseHeaderInt h.xRateLimitReset := by
  unfold parseRateLimit
  by_cases hc : jsFalsyOptInt (parseHeaderInt h.retryAfterHeader) ∧
      ¬ jsFalsyOptInt (parseHeaderInt h.xRateLimitReset) ∧ status = 429
  · rw [if_pos (by simpa using hc)]
    exact ⟨fun _ => rfl, fun hn => absurd hc hn, rfl, rfl, rfl⟩
  · rw [if_neg (by simpa using hc)]
    exact ⟨fun hp => absurd hp hc, fun _ => rfl, rfl, rfl, rfl⟩

/-- Claim C5 (amended) witness: at a 429 response with `retry-after: 5`, the
snapshot's retry-after is the header value. -/
theorem C5_parseRateLimit_retryAfter_witness :
    (parseRateLimit { retryAfterHeader := some "5", xRateLimitReset := some "100" } 429 40).retryAfter
      = parseHeaderInt (some "5") := by
  exact (C5_parseRateLimit_retryAfter
    { retryAfterHeader := some "5", xRateLimitReset := some "100" } 429 40).2.1 (by decide)

/-- Claim C6: whenever the upstream result has status 429, or status 403
with parsed remaining quota exactly 0, the gateway error reply has HTTP
status 429, error code `GITHUB_RATE_LIMIT`, and a details object whose
`retryAfterSec` key is present and carries the parsed retry-after value. -/
theorem C6_rate_limit_reply (r : GitHubResponse)
    (h : r.statusCode = 429 ∨ (r.statusCode = 403 ∧ r.rateLimit.remaining = some 0)) :
    (handleGithubErrorModel r).httpStatus = 429 ∧
    (handleGithubErrorModel r).code = "GITHUB_RATE_LIMIT" ∧
    ∃ d, (handleGithubErrorModel r).details = some d ∧
      d.retryAfterSec = some r.rateLimit.retryAfter := by
  have hrl : isRateLimitResponse r = true := by
    unfold isRateLimitResponse
    rcases h with h1 | ⟨h2, h3⟩ <;> simp [*]
  unfold handleGithubErrorModel
  rw [if_pos hrl]
  exact ⟨rfl, rfl, _, rfl, rfl⟩

/-- Claim C6 witness: a 403 result with zero remaining quota produces the
429 `GITHUB_RATE_LIMIT` reply carrying `retryAfterSec`. -/
theorem C6_rate_limit_reply_witness :
    (handleGithubErrorModel
      { statusCode := 403, ok := false, data := none, rawBody := none
        rateLimit := { limit := some 5000, remaining := some 0, reset := some 1700,
                       retryAfter := some 30, link := none }
        githubError := none }).httpStatus = 429 := by
  exact (C6_rate_limit_reply _ (Or.inr ⟨rfl, rfl⟩)).1

/-- Claim C2: for an authenticated request whose stored user has a non-empty
upstream access token, a refresh is attempted exactly when the stored
expiry exists and now is within 60 s of (or past) it (and a refresh token
and OAuth client credentials are available); when a refresh is due but no
refresh token is stored the request is rejected as expired with no
upstream call; a successful refresh performs exactly one User-store write
persisting the new token, rotated refresh token, expiry timestamps, scope
and type, and hands the new access token to the handler; outside the
buffer no refresh call is made and the stored token is used unchanged. -/
theorem C2_credential_refresh (tok secret uid pat : String) (user : StoredUser)
    (credsConfigured : Bool) (refresh : RefreshOutcome) (now : Int)
    (hpat : user.personalAccessToken = some pat) (hne : pat ≠ "") :
    (tokenNeedsRefresh user.tokenExpiresAt now = true ↔
      ∃ e, user.tokenExpiresAt = some e ∧ e - 60000 ≤ now) ∧
    (authenticateRequestModel (some tok) (some secret) (JwtResult.ok uid) (some user)
        credsConfigured refresh now).refreshCalls =
      (if tokenNeedsRefresh user.tokenExpiresAt now &&
          strTruthy user.githubRefreshToken && credsConfigured then 1 else 0) ∧
    (tokenNeedsRefresh user.tokenExpiresAt now = false →
      authenticateRequestModel (some tok) (some secret) (JwtResult.ok uid) (some user)
          credsConfigured refresh now =
        { outcome := AuthOutcome.proceed pat, writes := [], refreshCalls := 0 }) ∧
    (tokenNeedsRefresh user.tokenExpiresAt now = true →
      strTruthy user.githubRefreshToken = false →
      authenticateRequestModel (some tok) (some secret) (JwtResult.ok uid) (some user)
          credsConfigured refresh now =
        { outcome := AuthOutcome.reject 401 "GITHUB_TOKEN_EXPIRED", writes := [],
          refreshCalls := 0 }) ∧
    (∀ t, tokenNeedsRefresh user.tokenExpiresAt now = true →
      strTruthy user.githubRefreshToken = true → credsConfigured = true →
      refresh = RefreshOutcome.ok t →
      authenticateRequestModel (some tok) (some secret) (JwtResult.ok uid) (some user)
          credsConfigured refresh now =
        { outcome := AuthOutcome.proceed t.accessToken
          writes := [{ personalAccessToken := t.accessToken, tokenUpdatedAt := now,
                       tokenExpiresAt := t.tokenExpiresAt,
                       refreshTokenExpiresAt := t.refreshTokenExpiresAt,
                       githubTokenScope := t.scope, githubTokenType := t.tokenType,
                       githubRefreshToken := t.refreshToken }]
          refreshCalls := 1 }) := by
  have hdec : decryptPersonalAccessToken (user.personalAccessToken.getD "") = some pat := by
    rw [hpat]
    simp [decryptPersonalAccessToken, hne]
  have hstr : strTruthy user.personalAccessToken = true := by
    rw [hpat]
    simp [strTruthy, hne]
  refine ⟨?_, ?_, ?_, ?_, ?_⟩
  · cases h : user.tokenExpiresAt with
    | none => simp [tokenNeedsRefresh, h]
    | some e =>
      simp only [tokenNeedsRefresh, h, ge_iff_le, decide_eq_true_eq]
      constructor
      · intro hle
        exact ⟨e, rfl, by omega⟩
      · rintro ⟨e', he', hle⟩
        injection he' with he'
        subst he'
        omega
  · by_cases hnr : tokenNeedsRefresh user.tokenExpiresAt now <;>
      by_cases hrt : strTruthy user.githubRefreshToken <;>
      by_cases hc : credsConfigured = true <;>
      cases refresh <;>
      simp [authenticateRequestModel, hstr, hdec, hnr, hrt, hc]
  · intro hnr
    simp [authenticateRequestModel, hstr, hdec, hnr]
  · intro hnr hrt
    simp [authenticateRequestModel, hstr, hdec, hnr, hrt]
  · intro t hnr hrt hc hr
    subst hr
    subst hc
    simp [authenticateRequestModel, hstr, hdec, hnr, hrt]

/-- Claim C2 witness: a credential 30 s from expiry with a refresh token and
a successful upstream refresh yields exactly one persisted write and the
new token. -/
theorem C2_credential_refresh_witness :
    authenticateRequestModel (some "b") (some "s") (JwtResult.ok "u1")
      (some c2WitnessUser) true (RefreshOutcome.ok c2WitnessTokens) 1000000 =
      { outcome := AuthOutcome.proceed "new", writes := [c2WitnessWrite],
        refreshCalls := 1 } := by
  exact (C2_credential_refresh "b" "s" "u1" "old" c2WitnessUser true
    (RefreshOutcome.ok c2WitnessTokens) 1000000 rfl (by decide)).2.2.2.2
    c2WitnessTokens (by decide) (by decide) rfl rfl

/-- Claim C7 counterexample: an empty diff patch is at or under the limit,
yet the normalized file omits the patch (the `patch ? { patch } : {}`
spread drops the falsy empty string) instead of keeping it unchanged. -/
theorem C7_counterexample :
    ("" : String).data.length ≤ 8000 ∧
    (normalizeFileChange (Json.obj [("patch", Json.str "")]) 8000).patch = none ∧
    (normalizeFileChange (Json.obj [("patch", Json.str "")]) 8000).patch ≠
      some ("" : String).data := by
  refine ⟨by simp, rfl, by decide⟩

/-- Claim C7 (amended): the context's file list has exactly `min`
(fetched, `maxFiles`) entries — so exactly `maxFiles` whenever at least
`maxFiles` files were fetched, and never more; every collection is capped
by its configured maximum, with defaults 40 reviews / 50 comments /
60 files / 50 commits; a patch longer than `patchCharacterLimit` becomes
its first `patchCharacterLimit` units followed by the truncation marker
(so it ends with the marker and has length exactly the limit plus the
marker's length); a non-empty patch at or under the limit is kept
unchanged, and an empty patch is omitted from the normalized file. -/
theorem C7_context_size_bound (owner repo : String) (pullNumber : Nat)
    (limits : FetchLimits) (d : PullFetchData) :
    (fetchPullRequestContextModel owner repo pullNumber limits d).files.length
        = min d.files.length (resolveLimits limits).maxFiles ∧
    ((resolveLimits limits).maxFiles ≤ d.files.length →
      (fetchPullRequestContextModel owner repo pullNumber limits d).files.length
        = (resolveLimits limits).maxFiles) ∧
    (fetchPullRequestContextModel owner repo pullNumber limits d).files.length
        ≤ (resolveLimits limits).maxFiles ∧
    (fetchPullRequestContextModel owner repo pullNumber limits d).reviews.length
        ≤ (resolveLimits limits).maxReviews ∧
    (fetchPullRequestContextModel owner repo pullNumber limits d).comments.length
        ≤ (resolveLimits limits).maxComments ∧
    (fetchPullRequestContextModel owner repo pullNumber limits d).commits.length
        ≤ (resolveLimits limits).maxCommits ∧
    resolveLimits {} = { maxReviews := 40, maxComments := 50, maxFiles := 60,
                         maxCommits := 50, maxCommitComments := 30,
                         patchCharacterLimit := 8000 } ∧
    (∀ (file : Json) (s : String) (lim : Nat),
      jfield file "patch" = some (Json.str s) →
      (lim < s.data.length →
        (normalizeFileChange file lim).patch = some (s.data.take lim ++ truncMarker) ∧
        truncMarker <:+ s.data.take lim ++ truncMarker ∧
        (s.data.take lim ++ truncMarker).length = lim + truncMarker.length) ∧
      (s.data.length ≤ lim → s ≠ "" →
        (normalizeFileChange file lim).patch = some s.data) ∧
      (s = "" → (normalizeFileChange file lim).patch = none)) := by
  refine ⟨?_, ?_, ?_, ?_, ?_, ?_, rfl, ?_⟩
  · simp [fetchPullRequestContextModel, Nat.min_comm]
  · intro h
    simp [fetchPullRequestContextModel, Nat.min_eq_right h, Nat.min_comm] at *
    omega
  · simp [fetchPullRequestContextModel]
  · simp [fetchPullRequestContextModel]
  · simp [fetchPullRequestContextModel]
  · simp [fetchPullRequestContextModel]
  · intro file s lim hpatch
    have hlen : s.length = s.data.length := rfl
    refine ⟨?_, ?_, ?_⟩
    · intro hlt
      have hlt' : lim < s.length := by rw [hlen]; exact hlt
      have htrunc : s.data.take lim ++ truncMarker ≠ [] := by
        simp [truncMarker]
      refine ⟨?_, ⟨s.data.take lim, rfl⟩, ?_⟩
      · simp [normalizeFileChange, hpatch, hlt', htrunc]
      · have ht : (s.data.take lim).length = lim := by
          rw [List.length_take]
          omega
        simp [List.length_append, ht]
    · intro hle hne
      have hle' : ¬ lim < s.length := by rw [hlen]; omega
      have hnil : s.data ≠ [] := by
        intro h
        apply hne
        cases s with
        | mk l =>
          cases h
          rfl
      simp [normalizeFileChange, hpatch, hle', hnil]
    · intro he
      subst he
      have h0 : ("" : String).data = [] := rfl
      simp [normalizeFileChange, hpatch, h0]

/-- Claim C7 (amended) witness: with two fetched files and `maxFiles = 1`,
the context keeps exactly one file; a 3-unit patch under limit 2 is
truncated to length `2 + 16`. -/
theorem C7_context_size_bound_witness :
    (fetchPullRequestContextModel "o" "r" 1 { maxFiles := some 1 }
      { pull := Json.null, reviews := [],
        files := [Json.obj [], Json.obj []], comments := [], commits := [] }).files.length = 1 ∧
    (normalizeFileChange (Json.obj [("patch", Json.str "abc")]) 2).patch
      = some (("abc" : String).data.take 2 ++ truncMarker) := by
  constructor
  · exact (C7_context_size_bound "o" "r" 1 { maxFiles := some 1 }
      { pull := Json.null, reviews := [], files := [Json.obj [], Json.obj []],
        comments := [], commits := [] }).2.1 (by decide)
  · exact ((C7_context_size_bound "o" "r" 1 {}
      { pull := Json.null, reviews := [], files := [], comments := [], commits := [] }).2.2.2.2.2.2.2
      (Json.obj [("patch", Json.str "abc")]) "abc" 2 rfl).1 (by decide) |>.1

/-- Schema inversion: a verdict accepted by `judgmentSchema` has its
confidence within the `min(0).max(1)` bounds. -/
theorem zodParseJudgment_confidence {j : Json} {z : LLMJudgmentResponse}
    (h : zodParseJudgment j = some z) : 0 ≤ z.confidence ∧ z.confidence ≤ 1 := by
  unfold zodParseJudgment at h
  split at h
  case _ =>
    split at h
    case _ d c su kf rk ra hd hc hsu hkf hrk hra =>
      split at h
      case _ mfs hmeta =>
        split at h
        case _ rep tt idf hrep htt hidf =>
          have hz := Option.some.inj h
          unfold zConfidence at hc
          split at hc
          next q heq =>
            split at hc
            case isTrue hq =>
              have hqc : q = c := Option.some.inj hc
              subst hqc
              rw [← hz]
              exact hq
            case isFalse => exact absurd hc (by simp)
          next => exact absurd hc (by simp)
        case _ => exact absurd h (by simp)
      case _ => exact absurd h (by simp)
    case _ => exact absurd h (by simp)
  case _ => exact absurd h (by simp)

/-- Claim C8: every verdict returned by `generateJudgment` has confidence
in `[0, 1]` and a decision in the closed three-value set; an empty model
output, invalid JSON, or a schema violation each yield a distinguished
invocation error, never a partially populated verdict. -/
theorem C8_judgment_verdict (configOk : Bool) (ctx : ContextMeta) (o : VertexOutcome) :
    (∀ v, generateJudgmentModel configOk ctx o = Except.ok v →
      0 ≤ v.confidence ∧ v.confidence ≤ 1 ∧
      (v.decision = JudgmentDecision.approve ∨
       v.decision = JudgmentDecision.request_changes ∨
       v.decision = JudgmentDecision.comment)) ∧
    (∀ text parsed, configOk = true → o = VertexOutcome.reply text parsed →
      strTruthy text = false →
      generateJudgmentModel configOk ctx o =
        Except.error (JudgmentError.invocation "Vertex AI returned an empty response.")) ∧
    (∀ text e, configOk = true → o = VertexOutcome.reply text (Except.error e) →
      strTruthy text = true →
      generateJudgmentModel configOk ctx o =
        Except.error (JudgmentError.invocation "Vertex AI response was not valid JSON.")) ∧
    (∀ text j, configOk = true → o = VertexOutcome.reply text (Except.ok j) →
      strTruthy text = true → zodParseJudgment j = none →
      generateJudgmentModel configOk ctx o =
        Except.error (JudgmentError.invocation
          "Vertex AI response failed validation against schema.")) := by
  refine ⟨?_, ?_, ?_, ?_⟩
  · intro v h
    refine ⟨?_, ?_, by cases v.decision <;> simp⟩ <;>
    · unfold generateJudgmentModel at h
      split at h
      · exact absurd h (by simp)
      · split at h
        · exact absurd h (by simp)
        · next text parsed =>
          split at h
          · exact absurd h (by simp)
          · split at h
            · exact absurd h (by simp)
            · next j =>
              match hz : zodParseJudgment j with
              | none => rw [hz] at h; exact absurd h (by simp)
              | some z =>
                rw [hz] at h
                simp only [Except.ok.injEq] at h
                have hb := zodParseJudgment_confidence hz
                rw [← h]
                first
                | exact hb.1
                | exact hb.2
  · intro text parsed hcfg ho hempty
    subst hcfg
    subst ho
    simp [generateJudgmentModel, hempty]
  · intro text e hcfg ho htext
    subst hcfg
    subst ho
    simp [generateJudgmentModel, htext]
  · intro text j hcfg ho htext hz
    subst hcfg
    subst ho
    simp [generateJudgmentModel, htext, hz]

/-- Claim C8 witness: a concrete well-formed reply passes validation with
confidence bounds, and a concrete malformed (non-JSON) reply raises the
invocation error. -/
theorem C8_judgment_verdict_witness :
    (0 ≤ c8WitnessVerdict.confidence ∧ c8WitnessVerdict.confidence ≤ 1 ∧
      (c8WitnessVerdict.decision = JudgmentDecision.approve ∨
       c8WitnessVerdict.decision = JudgmentDecision.request_changes ∨
       c8WitnessVerdict.decision = JudgmentDecision.comment)) ∧
    generateJudgmentModel true { repository := "o/r", ctype := "commit", identifier := "i" }
        (VertexOutcome.reply (some "x") (Except.error ())) =
      Except.error (JudgmentError.invocation "Vertex AI response was not valid JSON.") := by
  constructor
  · exact (C8_judgment_verdict true
      { repository := "o/r", ctype := "commit", identifier := "i" }
      (VertexOutcome.reply (some "x") (Except.ok c8WitnessJson))).1
      c8WitnessVerdict (by exact rfl)
  · exact (C8_judgment_verdict true
      { repository := "o/r", ctype := "commit", identifier := "i" }
      (VertexOutcome.reply (some "x") (Except.error ()))).2.2.1
      (some "x") () rfl rfl (by decide)

/-- Claim C9 (amended): a failed upstream fetch aborts context building;
the judgment endpoint replies 502 with code `GITHUB_FETCH_FAILED`, a
message carrying the failing path and details carrying the upstream error
payload, and the generative model is never invoked.  The upstream status
code is recorded on the thrown `GitHubDataError` but is not part of the
response body. -/
theorem C9_fetch_failure_aborts (owner repo sha : String) (limits : FetchLimits)
    (commitResp commentsResp : GitHubResponse) (configOk : Bool) (vertex : VertexOutcome)
    (hfail : ¬ (commitResp.ok = true ∧ jsTruthyOpt commitResp.data = true)) :
    (∃ e, fetchGitHubJsonModel (commitFetchPath owner repo sha) commitResp =
        Except.error e ∧ e.statusCode = commitResp.statusCode ∧
        e.message = "GitHub request failed for " ++ commitFetchPath owner repo sha) ∧
    judgmentRouteModel (buildCommitContextResult owner repo sha limits commitResp commentsResp)
        configOk vertex =
      { reply := JudgmentReply.err 502 "GITHUB_FETCH_FAILED"
          ("GitHub request failed for " ++ commitFetchPath owner repo sha)
          (surfacedPayload commitResp)
        modelInvoked := false } := by
  have hfetch : fetchGitHubJsonModel (commitFetchPath owner repo sha) commitResp =
      Except.error (mkDataError (commitFetchPath owner repo sha) commitResp) := by
    unfold fetchGitHubJsonModel
    cases hd : commitResp.data with
    | none => rfl
    | some d =>
      have : ¬ (commitResp.ok && jsTruthy d) = true := by
        intro hb
        simp only [Bool.and_eq_true] at hb
        exact hfail ⟨hb.1, by simp [jsTruthyOpt, hd, hb.2]⟩
      simp [this]
  refine ⟨⟨mkDataError (commitFetchPath owner repo sha) commitResp, hfetch, rfl, rfl⟩, ?_⟩
  have hctx : buildCommitContextResult owner repo sha limits commitResp commentsResp =
      Except.error (mkDataError (commitFetchPath owner repo sha) commitResp) := by
    unfold buildCommitContextResult
    unfold commitFetchPath at hfetch
    simp only [hfetch]
    rfl
  rw [hctx]
  rfl

/-- Claim C9 (amended) witness: a 404 commit fetch yields the 502
`GITHUB_FETCH_FAILED` reply and no model call. -/
theorem C9_fetch_failure_aborts_witness :
    judgmentRouteModel
        (buildCommitContextResult "acme" "widgets" "abcdef0" {}
          { statusCode := 404, ok := false, data := none, rawBody := some "nf",
            rateLimit := { limit := none, remaining := none, reset := none,
                           retryAfter := none, link := none },
            githubError := some (GhPayload.text "nf") }
          { statusCode := 200, ok := true, data := some (Json.arr []), rawBody := some "[]",
            rateLimit := { limit := none, remaining := none, reset := none,
                           retryAfter := none, link := none },
            githubError := none })
        true VertexOutcome.fail =
      { reply := JudgmentReply.err 502 "GITHUB_FETCH_FAILED"
          ("GitHub request failed for " ++ commitFetchPath "acme" "widgets" "abcdef0")
          (some (GhPayload.text "nf"))
        modelInvoked := false } := by
  exact (C9_fetch_failure_aborts "acme" "widgets" "abcdef0" {} _ _ true VertexOutcome.fail
    (by intro h; exact absurd h.1 (by decide))).2

/-- Claim C9 counterexample: the claim requires the 502 response to carry
the upstream status code, but two failed commit fetches differing only in
upstream status (404 vs 500) produce identical endpoint responses — the
status is not carried. -/
theorem C9_counterexample :
    judgmentRouteModel
        (buildCommitContextResult "o" "r" "abcdef0" {}
          { statusCode := 404, ok := false, data := none, rawBody := some "x",
            rateLimit := { limit := none, remaining := none, reset := none,
                           retryAfter := none, link := none },
            githubError := some (GhPayload.text "x") }
          { statusCode := 200, ok := true, data := some (Json.arr []), rawBody := some "[]",
            rateLimit := { limit := none, remaining := none, reset := none,
                           retryAfter := none, link := none },
            githubError := none })
        true VertexOutcome.fail =
      judgmentRouteModel
        (buildCommitContextResult "o" "r" "abcdef0" {}
          { statusCode := 500, ok := false, data := none, rawBody := some "x",
            rateLimit := { limit := none, remaining := none, reset := none,
                           retryAfter := none, link := none },
            githubError := some (GhPayload.text "x") }
          { statusCode := 200, ok := true, data := some (Json.arr []), rawBody := some "[]",
            rateLimit := { limit := none, remaining := none, reset := none,
                           retryAfter := none, link := none },
            githubError := none })
        true VertexOutcome.fail ∧
    (404 : Nat) ≠ 500 := by
  exact ⟨rfl, by decide⟩

/-- Claim C10: a 2xx upstream response with an empty or non-JSON body is
reported by the executor as a success with `data = null`; `fetchGitHubJson`
then treats the null data as a failure, so context building throws
`GitHubDataError` and the judgment endpoint responds 502 with
`GITHUB_FETCH_FAILED`, without invoking the generative model. -/
theorem C10_empty_success_body (a : AttemptResponse) (jit : Nat → Nat)
    (nowSec : Nat → Int) (maxRetries : Nat) (owner repo sha : String)
    (limits : FetchLimits) (commentsResp : GitHubResponse) (configOk : Bool)
    (vertex : VertexOutcome)
    (hok : statusOk a.status = true)
    (hbody : a.rawBody = "" ∨ a.parsedJson = none) :
    (githubRequestModel (fun _ => a) jit nowSec maxRetries).result.ok = true ∧
    (githubRequestModel (fun _ => a) jit nowSec maxRetries).result.statusCode = a.status ∧
    (githubRequestModel (fun _ => a) jit nowSec maxRetries).result.data = none ∧
    (∃ e, fetchGitHubJsonModel (commitFetchPath owner repo sha)
        (githubRequestModel (fun _ => a) jit nowSec maxRetries).result =
        Except.error e ∧ e.statusCode = a.status) ∧
    judgmentRouteModel
        (buildCommitContextResult owner repo sha limits
          (githubRequestModel (fun _ => a) jit nowSec maxRetries).result commentsResp)
        configOk vertex =
      { reply := JudgmentReply.err 502 "GITHUB_FETCH_FAILED"
          ("GitHub request failed for " ++ commitFetchPath owner repo sha)
          (surfacedPayload (githubRequestModel (fun _ => a) jit nowSec maxRetries).result)
        modelInvoked := false } := by
  have hres : githubRequestModel (fun _ => a) jit nowSec maxRetries =
      { result := mkAttemptResult a (nowSec 0), attemptsUsed := 1, sleeps := [] } := by
    unfold githubRequestModel githubRequestLoop
    simp [mkAttemptResult, hok]
  have hdata : (mkAttemptResult a (nowSec 0)).data = none := by
    rcases hbody with hb | hb <;> simp [mkAttemptResult, hb]
  have hok' : (mkAttemptResult a (nowSec 0)).ok = true := by
    simp [mkAttemptResult, hok]
  rw [hres]
  refine ⟨hok', rfl, hdata, ?_, ?_⟩
  · refine ⟨mkDataError (commitFetchPath owner repo sha) (mkAttemptResult a (nowSec 0)), ?_, rfl⟩
    unfold fetchGitHubJsonModel
    rw [hdata]
  · have hfetch := (C9_fetch_failure_aborts owner repo sha limits
      (mkAttemptResult a (nowSec 0)) commentsResp configOk vertex ?_).2
    · exact hfetch
    · intro h
      rw [hdata] at h
      exact absurd h.2 (by simp [jsTruthyOpt])

/-- Claim C10 witness: a 200 response with empty body flows through the
executor, `fetchGitHubJson` and the judgment endpoint as a 502
`GITHUB_FETCH_FAILED` with no model call. -/
theorem C10_empty_success_body_witness :
    (githubRequestModel
      (fun _ => { status := 200,
                  headers := { xRateLimitLimit := none, xRateLimitRemaining := none,
                               xRateLimitReset := none, retryAfterHeader := none,
                               linkHeader := none },
                  rawBody := "", parsedJson := none })
      (fun _ => 0) (fun _ => 0) 3).result.data = none := by
  exact (C10_empty_success_body
    { status := 200,
      headers := { xRateLimitLimit := none, xRateLimitRemaining := none,
                   xRateLimitReset := none, retryAfterHeader := none, linkHeader := none },
      rawBody := "", parsedJson := none }
    (fun _ => 0) (fun _ => 0) 3 "o" "r" "abcdef0" {}
    { statusCode := 200, ok := true, data := some (Json.arr []), rawBody := some "[]",
      rateLimit := { limit := none, remaining := none, reset := none,
                     retryAfter := none, link := none },
      githubError := none }
    true VertexOutcome.fail (by decide) (Or.inl rfl)).2.2.1

/-- Trace characterization of the retry loop, by induction on the number of
remaining iterations. -/
theorem githubRequestLoop_spec (resp : Nat → AttemptResponse) (jit : Nat → Nat)
    (nowSec : Nat → Int) (maxRetries : Nat) :
    ∀ (r attempt : Nat), 1 ≤ r → attempt + r = maxRetries + 1 →
    attempt < (githubRequestLoop resp jit nowSec maxRetries attempt r).attemptsUsed ∧
    (githubRequestLoop resp jit nowSec maxRetries attempt r).attemptsUsed ≤ maxRetries + 1 ∧
    (githubRequestLoop resp jit nowSec maxRetries attempt r).sleeps.length =
      (githubRequestLoop resp jit nowSec maxRetries attempt r).attemptsUsed - 1 - attempt ∧
    (githubRequestLoop resp jit nowSec maxRetries attempt r).result =
      mkAttemptResult (resp ((githubRequestLoop resp jit nowSec maxRetries attempt r).attemptsUsed - 1))
        (nowSec ((githubRequestLoop resp jit nowSec maxRetries attempt r).attemptsUsed - 1)) ∧
    (∀ k, k < (githubRequestLoop resp jit nowSec maxRetries attempt r).sleeps.length →
      statusOk (resp (attempt + k)).status = false ∧
      (rateLimitedAt resp nowSec (attempt + k) = true ∨
        shouldRetry (resp (attempt + k)).status = true) ∧
      attempt + k < maxRetries ∧
      (githubRequestLoop resp jit nowSec maxRetries attempt r).sleeps.get? k =
        some (expectedSleep resp jit nowSec (attempt + k))) ∧
    finalAttemptOk resp nowSec maxRetries
      ((githubRequestLoop resp jit nowSec maxRetries attempt r).attemptsUsed - 1) := by
  intro r
  induction r with
  | zero => intro attempt h1 h2; omega
  | succ r ih =>
    intro attempt h1 h2
    have hok_eq : (mkAttemptResult (resp attempt) (nowSec attempt)).ok =
        statusOk (resp attempt).status := rfl
    have hrl_eq : (mkAttemptResult (resp attempt) (nowSec attempt)).rateLimit =
        attemptRL resp nowSec attempt := rfl
    by_cases hok : statusOk (resp attempt).status = true
    · have hloop : githubRequestLoop resp jit nowSec maxRetries attempt (r + 1) =
          { result := mkAttemptResult (resp attempt) (nowSec attempt),
            attemptsUsed := attempt + 1, sleeps := [] } := by
        unfold githubRequestLoop
        simp [hok_eq, hok]
      rw [hloop]
      refine ⟨by simp, by simp; omega, by simp, by simp, by simp, ?_⟩
      exact Or.inl hok
    · by_cases hrl : rateLimitedAt resp nowSec attempt = true
      · by_cases hlast : attempt = maxRetries
        · have hloop : githubRequestLoop resp jit nowSec maxRetries attempt (r + 1) =
              { result := mkAttemptResult (resp attempt) (nowSec attempt),
                attemptsUsed := attempt + 1, sleeps := [] } := by
            unfold githubRequestLoop
            simp [hok_eq, hok, hrl_eq, rateLimitedAt] at *
            simp [hok, hrl, hlast]
          rw [hloop]
          refine ⟨by simp, by simp; omega, by simp, by simp, by simp, ?_⟩
          exact Or.inr (Or.inl ⟨by simpa using hok, hrl, hlast⟩)
        · have hlt : attempt < maxRetries := by omega
          have hr1 : 1 ≤ r := by omega
          have hr2 : (attempt + 1) + r = maxRetries + 1 := by omega
          have IH := ih (attempt + 1) hr1 hr2
          have hloop : githubRequestLoop resp jit nowSec maxRetries attempt (r + 1) =
              { result := (githubRequestLoop resp jit nowSec maxRetries (attempt + 1) r).result,
                attemptsUsed := (githubRequestLoop resp jit nowSec maxRetries (attempt + 1) r).attemptsUsed,
                sleeps := expectedSleep resp jit nowSec attempt ::
                  (githubRequestLoop resp jit nowSec maxRetries (attempt + 1) r).sleeps } := by
            conv_lhs => unfold githubRequestLoop
            simp only [hok_eq, hok, hrl_eq, Bool.false_eq_true, if_false]
            rw [if_pos (by simpa [rateLimitedAt] using hrl), if_neg hlast]
            simp [expectedSleep, baseDelay, hrl, attemptRL]
          rw [hloop]
          obtain ⟨ih1, ih2, ih3, ih4, ih5, ih6⟩ := IH
          refine ⟨by simp; omega, by simpa using ih2, by simp [ih3]; omega,
            by simpa using ih4, ?_, by simpa using ih6⟩
          intro k hk
          simp only [List.length_cons] at hk ⊢
          cases k with
          | zero =>
            refine ⟨by simpa using hok, Or.inl hrl, by omega, by simp⟩
          | succ k =>
            have hk' : k < (githubRequestLoop resp jit nowSec maxRetries (attempt + 1) r).sleeps.length := by
              omega
            obtain ⟨a1, a2, a3, a4⟩ := ih5 k hk'
            have harith : attempt + (k + 1) = (attempt + 1) + k := by omega
            rw [harith]
            exact ⟨a1, a2, by omega, by simpa using a4⟩
      · by_cases h5 : shouldRetry (resp attempt).status = true ∧ attempt < maxRetries
        · obtain ⟨h5a, h5b⟩ := h5
          have hr1 : 1 ≤ r := by omega
          have hr2 : (attempt + 1) + r = maxRetries + 1 := by omega
          have IH := ih (attempt + 1) hr1 hr2
          have hloop : githubRequestLoop resp jit nowSec maxRetries attempt (r + 1) =
              { result := (githubRequestLoop resp jit nowSec maxRetries (attempt + 1) r).result,
                attemptsUsed := (githubRequestLoop resp jit nowSec maxRetries (attempt + 1) r).attemptsUsed,
                sleeps := expectedSleep resp jit nowSec attempt ::
                  (githubRequestLoop resp jit nowSec maxRetries (attempt + 1) r).sleeps } := by
            conv_lhs => unfold githubRequestLoop
            simp only [hok_eq, hok, hrl_eq, Bool.false_eq_true, if_false]
            rw [if_neg (by simpa [rateLimitedAt] using hrl)]
            rw [if_pos (by exact ⟨h5a, h5b⟩)]
            simp [expectedSleep, baseDelay, hrl]
          rw [hloop]
          obtain ⟨ih1, ih2, ih3, ih4, ih5, ih6⟩ := IH
          refine ⟨by simp; omega, by simpa using ih2, by simp [ih3]; omega,
            by simpa using ih4, ?_, by simpa using ih6⟩
          intro k hk
          simp only [List.length_cons] at hk ⊢
          cases k with
          | zero =>
            refine ⟨by simpa using hok, Or.inr h5a, by omega, by simp⟩
          | succ k =>
            have hk' : k < (githubRequestLoop resp jit nowSec maxRetries (attempt + 1) r).sleeps.length := by
              omega
            obtain ⟨a1, a2, a3, a4⟩ := ih5 k hk'
            have harith : attempt + (k + 1) = (attempt + 1) + k := by omega
            rw [harith]
            exact ⟨a1, a2, by omega, by simpa using a4⟩
        · have hloop : githubRequestLoop resp jit nowSec maxRetries attempt (r + 1) =
              { result := mkAttemptResult (resp attempt) (nowSec attempt),
                attemptsUsed := attempt + 1, sleeps := [] } := by
            unfold githubRequestLoop
            simp only [hok_eq, hok, hrl_eq, Bool.false_eq_true, if_false]
            rw [if_neg (by simpa [rateLimitedAt] using hrl)]
            rw [if_neg h5]
          rw [hloop]
          refine ⟨by simp, by simp; omega, by simp, by simp, by simp, ?_⟩
          by_cases h5a : shouldRetry (resp attempt).status = true
          · have hmr : attempt = maxRetries := by
              rcases Nat.lt_or_ge attempt maxRetries with hlt | hge
              · exact absurd ⟨h5a, hlt⟩ h5
              · omega
            exact Or.inr (Or.inr (Or.inl ⟨by simpa using hok, by simpa using hrl, h5a, hmr⟩))
          · exact Or.inr (Or.inr (Or.inr ⟨by simpa using hok, by simpa using hrl,
              by simpa using h5a⟩))

/-- Claim C1: for every sequence of upstream responses and every
`maxRetries`, `githubRequest` makes at most `maxRetries + 1` attempts, and
each attempt follows the per-attempt decision rule: the returned result is
built from the final attempt's response; every earlier (retried) attempt
was a non-2xx response that was either rate-limited (429, or 403 with
remaining exactly 0) or a 5xx, with attempts remaining, and the sleep
before its retry equals `retryAfter * 1000` (resp. `300 ms * 2^attempt`)
plus the jitter for that attempt, which is bounded by
`100 ms * (attempt + 1)`; the final attempt is either a 2xx success, a
rate-limited or 5xx failure with the budget exhausted, or any other
non-2xx failure returned immediately. -/
theorem C1_executor_retry_policy (resp : Nat → AttemptResponse) (jit : Nat → Nat)
    (nowSec : Nat → Int) (maxRetries : Nat)
    (hjit : ∀ n, (jit n : Int) < (JITTER_MS : Int) * (n + 1)) :
    1 ≤ (githubRequestModel resp jit nowSec maxRetries).attemptsUsed ∧
    (githubRequestModel resp jit nowSec maxRetries).attemptsUsed ≤ maxRetries + 1 ∧
    (githubRequestModel resp jit nowSec maxRetries).sleeps.length =
      (githubRequestModel resp jit nowSec maxRetries).attemptsUsed - 1 ∧
    (githubRequestModel resp jit nowSec maxRetries).result =
      mkAttemptResult (resp ((githubRequestModel resp jit nowSec maxRetries).attemptsUsed - 1))
        (nowSec ((githubRequestModel resp jit nowSec maxRetries).attemptsUsed - 1)) ∧
    (∀ i, i < (githubRequestModel resp jit nowSec maxRetries).sleeps.length →
      statusOk (resp i).status = false ∧
      (rateLimitedAt resp nowSec i = true ∨ shouldRetry (resp i).status = true) ∧
      i < maxRetries ∧
      (githubRequestModel resp jit nowSec maxRetries).sleeps.get? i =
        some (expectedSleep resp jit nowSec i) ∧
      baseDelay resp nowSec i ≤ expectedSleep resp jit nowSec i ∧
      expectedSleep resp jit nowSec i < baseDelay resp nowSec i + (JITTER_MS : Int) * (i + 1)) ∧
    finalAttemptOk resp nowSec maxRetries
      ((githubRequestModel resp jit nowSec maxRetries).attemptsUsed - 1) := by
  have H := githubRequestLoop_spec resp jit nowSec maxRetries (maxRetries + 1) 0
    (by omega) (by omega)
  obtain ⟨h1, h2, h3, h4, h5, h6⟩ := H
  simp only [githubRequestModel]
  refine ⟨h1, h2, by simpa using h3, h4, ?_, h6⟩
  intro i hi
  obtain ⟨a1, a2, a3, a4⟩ := h5 i (by simpa using hi)
  refine ⟨by simpa using a1, by simpa using a2, by simpa using a3, by simpa using a4, ?_, ?_⟩
  · have hj : (0 : Int) ≤ (jit i : Int) := Int.ofNat_nonneg _
    simp only [expectedSleep]
    omega
  · have hj := hjit i
    simp only [expectedSleep]
    push_cast at hj ⊢
    omega

/-- Claim C1 witness: three consecutive 500 responses followed by success
use four attempts with the exponential backoff sleeps. -/
theorem C1_executor_retry_policy_witness :
    (githubRequestModel
      (fun _ => { status := 500,
                  headers := { xRateLimitLimit := none, xRateLimitRemaining := none,
                               xRateLimitReset := none, retryAfterHeader := none,
                               linkHeader := none },
                  rawBody := "", parsedJson := none })
      (fun n => n) (fun _ => 0) 3).attemptsUsed ≤ 3 + 1 := by
  exact (C1_executor_retry_policy
    (fun _ => { status := 500,
                headers := { xRateLimitLimit := none, xRateLimitRemaining := none,
                             xRateLimitReset := none, retryAfterHeader := none,
                             linkHeader := none },
                rawBody := "", parsedJson := none })
    (fun n => n) (fun _ => 0) 3
    (by intro n; simp only [JITTER_MS]; push_cast; omega)).2.1

/-! Canonical-serialization lemmas for claim C4. -/

theorem hexVal_hexDigit : ∀ v : Nat, v < 16 → hexVal (hexDigit v) = some v := by decide

/-- Round trip of the string-literal escape: decoding an escaped body up to
its closing quote recovers the body and the remainder. -/
theorem unescape_escape (s : List Char) (r : List Char) :
    unescape (s.flatMap escapeChar ++ '"' :: r) = some (s, r) := by
  induction s generalizing r with
  | nil =>
    rw [unescape.eq_def]
    simp
  | cons c s ih =>
    rw [List.flatMap_cons, List.append_assoc]
    by_cases h1 : c = '"'
    · subst h1
      have he : escapeChar '"' = ['\\', '"'] := rfl
      rw [he]
      simp only [List.cons_append, List.nil_append]
      rw [unescape.eq_def]
      simp [codeOf, ih]
    · by_cases h2 : c = '\\'
      · subst h2
        have he : escapeChar '\\' = ['\\', '\\'] := rfl
        rw [he]
        simp only [List.cons_append, List.nil_append]
        rw [unescape.eq_def]
        simp [codeOf, ih]
      · by_cases h3 : c.toNat < 32
        · by_cases hb : c = '\x08'
          · subst hb
            have he : escapeChar '\x08' = ['\\', 'b'] := rfl
            rw [he]
            simp only [List.cons_append, List.nil_append]
            rw [unescape.eq_def]
            simp [codeOf, ih]
          · by_cases ht : c = '\x09'
            · subst ht
              have he : escapeChar '\x09' = ['\\', 't'] := rfl
              rw [he]
              simp only [List.cons_append, List.nil_append]
              rw [unescape.eq_def]
              simp [codeOf, ih]
            · by_cases hn : c = '\x0a'
              · subst hn
                have he : escapeChar '\x0a' = ['\\', 'n'] := rfl
                rw [he]
                simp only [List.cons_append, List.nil_append]
                rw [unescape.eq_def]
                simp [codeOf, ih]
              · by_cases hf : c = '\x0c'
                · subst hf
                  have he : escapeChar '\x0c' = ['\\', 'f'] := rfl
                  rw [he]
                  simp only [List.cons_append, List.nil_append]
                  rw [unescape.eq_def]
                  simp [codeOf, ih]
                · by_cases hcr : c = '\x0d'
                  · subst hcr
                    have he : escapeChar '\x0d' = ['\\', 'r'] := rfl
                    rw [he]
                    simp only [List.cons_append, List.nil_append]
                    rw [unescape.eq_def]
                    simp [codeOf, ih]
                  · have he : escapeChar c = ['\\', 'u', '0', '0',
                        hexDigit (c.toNat / 16), hexDigit (c.toNat % 16)] := by
                      unfold escapeChar
                      rw [if_neg h1, if_neg h2, if_pos h3, if_neg hb, if_neg ht,
                        if_neg hn, if_neg hf, if_neg hcr]
                    have hd1 : hexVal (hexDigit (c.toNat / 16)) = some (c.toNat / 16) :=
                      hexVal_hexDigit _ (by omega)
                    have hd2 : hexVal (hexDigit (c.toNat % 16)) = some (c.toNat % 16) :=
                      hexVal_hexDigit _ (Nat.mod_lt _ (by omega))
                    have hc : Char.ofNat (16 * (c.toNat / 16) + c.toNat % 16) = c := by
                      rw [Nat.div_add_mod]
                      exact Char.ofNat_toNat c
                    rw [he]
                    simp only [List.cons_append, List.nil_append]
                    rw [unescape.eq_def]
                    simp [hd1, hd2, hc, ih]
        · have he : escapeChar c = [c] := by
            unfold escapeChar
            rw [if_neg h1, if_neg h2, if_neg h3]
          rw [he]
          simp only [List.cons_append, List.nil_append]
          rw [unescape.eq_def]
          simp [h1, h2, ih]

theorem natChars_go_append (n : Nat) : ∀ acc : List Char,
    natChars.go n acc = natChars.go n [] ++ acc := by
  induction n using Nat.strong_induction_on with
  | _ n ih =>
    intro acc
    by_cases h : n < 10
    · rw [natChars.go.eq_def]
      conv_rhs => rw [natChars.go.eq_def]
      simp [h]
    · rw [natChars.go.eq_def]
      conv_rhs => rw [natChars.go.eq_def]
      simp only [h, dif_neg, not_false_iff]
      rw [ih (n / 10) (Nat.div_lt_self (by omega) (by omega)),
        ih (n / 10) (Nat.div_lt_self (by omega) (by omega))
          (Char.ofNat (48 + n % 10) :: [])]
      simp

/-- One-step unfolding of the decimal rendering. -/
theorem natChars_eq (n : Nat) :
    natChars n = if n < 10 then [Char.ofNat (48 + n)]
      else natChars (n / 10) ++ [Char.ofNat (48 + n % 10)] := by
  unfold natChars
  by_cases h : n < 10
  · rw [natChars.go.eq_def]
    simp [h]
  · rw [natChars.go.eq_def]
    simp only [h, dif_neg, not_false_iff, if_neg]
    rw [natChars_go_append]

theorem digitChar_isDigit : ∀ d : Nat, d < 10 → isDigitChar (Char.ofNat (48 + d)) = true := by
  decide

theorem digitChar_toNat : ∀ d : Nat, d < 10 → (Char.ofNat (48 + d)).toNat = 48 + d := by
  decide

theorem natChars_digits (n : Nat) : ∀ c ∈ natChars n, isDigitChar c = true := by
  induction n using Nat.strong_induction_on with
  | _ n ih =>
    rw [natChars_eq]
    by_cases h : n < 10
    · simp only [h, if_true, List.mem_singleton]
      intro c hc
      subst hc
      exact digitChar_isDigit n h
    · simp only [h, if_false, List.mem_append, List.mem_singleton]
      intro c hc
      rcases hc with hc | hc
      · exact ih (n / 10) (Nat.div_lt_self (by omega) (by omega)) c hc
      · subst hc
        exact digitChar_isDigit _ (Nat.mod_lt _ (by omega))

theorem natChars_ne_nil (n : Nat) : natChars n ≠ [] := by
  rw [natChars_eq]
  split <;> simp

theorem digitsToNat_natChars (n : Nat) : digitsToNat (natChars n) = n := by
  induction n using Nat.strong_induction_on with
  | _ n ih =>
    rw [natChars_eq]
    by_cases h : n < 10
    · simp only [h, if_true]
      unfold digitsToNat
      simp [digitChar_toNat n h]
    · simp only [h, if_false]
      unfold digitsToNat
      rw [List.foldl_append]
      have hv := ih (n / 10) (Nat.div_lt_self (by omega) (by omega))
      unfold digitsToNat at hv
      rw [hv]
      simp [digitChar_toNat _ (Nat.mod_lt _ (by omega))]
      omega

theorem takeWhile_dropWhile_append {p : Char → Bool} :
    ∀ (l r : List Char), (∀ c ∈ l, p c = true) → r.takeWhile p = [] →
      (l ++ r).takeWhile p = l ∧ (l ++ r).dropWhile p = r := by
  intro l
  induction l with
  | nil =>
    intro r _ hr
    refine ⟨by simpa using hr, ?_⟩
    cases r with
    | nil => simp
    | cons a t =>
      simp only [List.takeWhile_cons] at hr
      by_cases ha : p a
      · simp [ha] at hr
      · simp only [Bool.not_eq_true] at ha
        simp [List.dropWhile_cons, ha]
  | cons c l ihl =>
    intro r hall hr
    have hc : p c = true := hall c (by simp)
    have := ihl r (fun x hx => hall x (by simp [hx])) hr
    simp [List.takeWhile_cons, List.dropWhile_cons, hc, this.1, this.2]

theorem leadingNat_natChars (n : Nat) (r : List Char)
    (hr : r.takeWhile isDigitChar = []) :
    leadingNat (natChars n ++ r) = some (n, r) := by
  obtain ⟨ht, hd⟩ := takeWhile_dropWhile_append (natChars n) r (natChars_digits n) hr
  unfold leadingNat
  rw [ht, hd]
  simp [natChars_ne_nil, digitsToNat_natChars]

theorem digit_ne_quote {c : Char} (h : isDigitChar c = true) : c ≠ '"' := by
  intro hc; subst hc; exact absurd h (by decide)

theorem digit_ne_t {c : Char} (h : isDigitChar c = true) : c ≠ 't' := by
  intro hc; subst hc; exact absurd h (by decide)

theorem digit_ne_f {c : Char} (h : isDigitChar c = true) : c ≠ 'f' := by
  intro hc; subst hc; exact absurd h (by decide)

theorem digit_ne_minus {c : Char} (h : isDigitChar c = true) : c ≠ '-' := by
  intro hc; subst hc; exact absurd h (by decide)

/-- Round trip of one rendered query value, given that the remainder does
not begin with a digit. -/
theorem decodeVal_render (v : QVal) (r : List Char)
    (hr : r.takeWhile isDigitChar = []) :
    decodeVal (renderQVal v ++ r) = some (v, r) := by
  cases v with
  | str s =>
    show decodeVal (renderStr s ++ r) = _
    unfold renderStr
    simp only [List.cons_append, List.append_assoc, List.singleton_append]
    unfold decodeVal
    simp only [if_pos rfl]
    rw [unescape_escape]
    cases s with
    | mk l => simp
  | num n =>
    cases n with
    | ofNat m =>
      show decodeVal (natChars m ++ r) = _
      obtain ⟨c, t, hct⟩ : ∃ c t, natChars m = c :: t := by
        cases h : natChars m with
        | nil => exact absurd h (natChars_ne_nil m)
        | cons c t => exact ⟨c, t, rfl⟩
      have hdig : isDigitChar c = true := natChars_digits m c (by rw [hct]; simp)
      rw [hct, List.cons_append]
      simp only [decodeVal]
      rw [if_neg (digit_ne_quote hdig), if_neg (digit_ne_t hdig),
        if_neg (digit_ne_f hdig), if_neg (digit_ne_minus hdig)]
      have : c :: (t ++ r) = natChars m ++ r := by rw [hct]; rfl
      rw [this]
      unfold decodeNat
      rw [leadingNat_natChars m r hr]
      rfl
    | negSucc m =>
      show decodeVal ('-' :: (natChars (m + 1) ++ r)) = _
      simp only [decodeVal]
      rw [if_neg (show ¬('-' = '"') by decide), if_neg (show ¬('-' = 't') by decide),
        if_neg (show ¬('-' = 'f') by decide)]
      rw [if_pos trivial]
      unfold decodeNat
      rw [leadingNat_natChars (m + 1) r hr]
      simp only [Option.map_some']
      congr 2
  | bool b =>
    cases b with
    | false =>
      show decodeVal ("false".data ++ r) = _
      have : ("false".data ++ r) = 'f' :: 'a' :: 'l' :: 's' :: 'e' :: r := rfl
      rw [this]
      unfold decodeVal
      simp
    | true =>
      show decodeVal ("true".data ++ r) = _
      have : ("true".data ++ r) = 't' :: 'r' :: 'u' :: 'e' :: r := rfl
      rw [this]
      unfold decodeVal
      simp

/-- Round trip of one rendered object member. -/
theorem decodeEntry_render (e : String × QVal) (t : List Char)
    (ht : t.takeWhile isDigitChar = []) :
    decodeEntry (renderEntry e ++ t) = some (e, t) := by
  obtain ⟨k, v⟩ := e
  show decodeEntry ((renderStr k ++ ':' :: renderQVal v) ++ t) = _
  unfold renderStr
  simp only [List.cons_append, List.append_assoc, List.singleton_append,
    List.nil_append]
  simp only [decodeEntry]
  rw [if_pos trivial, unescape_escape]
  simp only [Option.some_bind]
  rw [decodeVal_render v t ht]
  cases k with
  | mk l => simp

/-- Uniform unfolding of the comma-joined member rendering. -/
theorem renderEntriesGo_cons (e : String × QVal) (l : List (String × QVal)) :
    renderEntriesGo (e :: l) =
      renderEntry e ++ (if l = [] then [] else ',' :: renderEntriesGo l) := by
  cases l <;> simp [renderEntriesGo]

/-- The member rendering is injective for entry lists sharing one key
skeleton, with remainders that do not begin with a digit. -/
theorem renderEntriesGo_inj : ∀ (l1 l2 : List (String × QVal)) (t1 t2 : List Char),
    l1.map Prod.fst = l2.map Prod.fst →
    t1.takeWhile isDigitChar = [] → t2.takeWhile isDigitChar = [] →
    renderEntriesGo l1 ++ t1 = renderEntriesGo l2 ++ t2 → l1 = l2 ∧ t1 = t2 := by
  intro l1
  induction l1 with
  | nil =>
    intro l2 t1 t2 hk h1 h2 heq
    have hl2 : l2 = [] := by
      cases l2 with
      | nil => rfl
      | cons b l2 => simp at hk
    subst hl2
    simp only [renderEntriesGo, List.nil_append] at heq
    exact ⟨rfl, heq⟩
  | cons e1 l1 ih =>
    intro l2 t1 t2 hk h1 h2 heq
    cases l2 with
    | nil => simp at hk
    | cons e2 l2 =>
      simp only [List.map_cons, List.cons.injEq] at hk
      obtain ⟨hk1, hk2⟩ := hk
      rw [renderEntriesGo_cons, renderEntriesGo_cons, List.append_assoc,
        List.append_assoc] at heq
      have hcomma : isDigitChar ',' = false := by decide
      have hT1d : ((if l1 = [] then [] else ',' :: renderEntriesGo l1) ++ t1).takeWhile
          isDigitChar = [] := by
        by_cases hl : l1 = [] <;> simp [hl, h1, List.takeWhile_cons, hcomma]
      have hT2d : ((if l2 = [] then [] else ',' :: renderEntriesGo l2) ++ t2).takeWhile
          isDigitChar = [] := by
        by_cases hl : l2 = [] <;> simp [hl, h2, List.takeWhile_cons, hcomma]
      have hdec := congrArg decodeEntry heq
      rw [decodeEntry_render e1 _ hT1d, decodeEntry_render e2 _ hT2d] at hdec
      have hpair := Option.some.inj hdec
      have he : e1 = e2 := congrArg Prod.fst hpair
      have hT : (if l1 = [] then [] else ',' :: renderEntriesGo l1) ++ t1 =
          (if l2 = [] then [] else ',' :: renderEntriesGo l2) ++ t2 :=
        congrArg Prod.snd hpair
      by_cases hl1 : l1 = []
      · have hl2 : l2 = [] := by
          subst hl1
          cases l2 with
          | nil => rfl
          | cons b l2 => simp at hk2
        subst hl1
        subst hl2
        simp only [if_pos rfl, List.nil_append] at hT
        exact ⟨by rw [he], hT⟩
      · have hl2 : l2 ≠ [] := by
          intro h
          subst h
          simp at hk2
          exact hl1 hk2
        rw [if_neg hl1, if_neg hl2] at hT
        simp only [List.cons_append, List.cons.injEq] at hT
        obtain ⟨h12, ht12⟩ := ih l2 t1 t2 hk2 h1 h2 hT.2
        exact ⟨by rw [he, h12], ht12⟩

/-- `JSON.stringify` of a canonical object is injective on entry lists with
one key skeleton. -/
theorem jsonStringifyObj_inj (l1 l2 : List (String × QVal))
    (hk : l1.map Prod.fst = l2.map Prod.fst)
    (h : jsonStringifyObj l1 = jsonStringifyObj l2) : l1 = l2 := by
  unfold jsonStringifyObj at h
  simp only [List.cons.injEq, true_and] at h
  exact (renderEntriesGo_inj l1 l2 ['\x7d'] ['\x7d'] hk (by decide) (by decide) h).1

theorem map_fst_orderedInsert (e : String × QVal) (l : List (String × QVal)) :
    (List.orderedInsert keyLE e l).map Prod.fst =
      List.orderedInsert (· ≤ ·) e.1 (l.map Prod.fst) := by
  induction l with
  | nil => rfl
  | cons b l ih =>
    by_cases h : e.1 ≤ b.1
    · simp [List.orderedInsert, keyLE, h]
    · simp [List.orderedInsert, keyLE, h, ih]

theorem map_fst_insertionSort (l : List (String × QVal)) :
    (List.insertionSort keyLE l).map Prod.fst =
      List.insertionSort (· ≤ ·) (l.map Prod.fst) := by
  induction l with
  | nil => rfl
  | cons e l ih => simp [List.insertionSort, map_fst_orderedInsert, ih]

/-- A key-sorted entry list with distinct keys is strictly sorted. -/
theorem sorted_keyLT_of_nodup (l : List (String × QVal))
    (hs : List.Sorted keyLE l) (hn : (l.map Prod.fst).Nodup) :
    List.Sorted keyLT l := by
  have hne : List.Pairwise (fun a b : String × QVal => a.1 ≠ b.1) l :=
    List.pairwise_map.mp hn
  exact (hs.and hne).imp (fun h => lt_of_le_of_ne h.1 h.2)

/-- The keys of the kept entries form a sublist of the query's keys. -/
theorem keys_filterMapValues_sublist (q : List (String × Option QVal)) :
    (((q.filterMap (fun e => e.2.map (fun v => (e.1, v)))).map Prod.fst)).Sublist
      (q.map Prod.fst) := by
  induction q with
  | nil => simp
  | cons e q ih =>
    cases hv : e.2 with
    | none =>
      simp only [List.filterMap_cons, hv, Option.map_none', List.map_cons]
      exact ih.cons _
    | some v =>
      simp only [List.filterMap_cons, hv, Option.map_some', List.map_cons]
      exact ih.cons₂ _

/-- Claim C4, canonicalization half: two requests from the same identity to
the same endpoint whose validated query parameters are equal as a set of
key/value pairs (a permutation, keys being unique in a query object) build
the same canonical serialization, hence the same cache key. -/
theorem cacheKey_perm_invariant (userId owner repo : String)
    (q1 q2 : List (String × Option QVal)) (hperm : q1.Perm q2)
    (hnodup : (q1.map Prod.fst).Nodup) :
    serializeQuery q1 = serializeQuery q2 ∧
    pullsCacheKey userId owner repo q1 = pullsCacheKey userId owner repo q2 := by
  have hser : serializeQuery q1 = serializeQuery q2 := by
    simp only [serializeQuery]
    have hpermE : (q1.filterMap (fun e => e.2.map (fun v => (e.1, v)))).Perm
        (q2.filterMap (fun e => e.2.map (fun v => (e.1, v)))) :=
      hperm.filterMap _
    have hs1 := List.sorted_insertionSort keyLE
      (q1.filterMap (fun e => e.2.map (fun v => (e.1, v))))
    have hs2 := List.sorted_insertionSort keyLE
      (q2.filterMap (fun e => e.2.map (fun v => (e.1, v))))
    have hnodup2 : (q2.map Prod.fst).Nodup := ((hperm.map _).nodup_iff).mp hnodup
    have hnE1 : ((q1.filterMap (fun e => e.2.map (fun v => (e.1, v)))).map Prod.fst).Nodup :=
      (keys_filterMapValues_sublist q1).nodup hnodup
    have hnE2 : ((q2.filterMap (fun e => e.2.map (fun v => (e.1, v)))).map Prod.fst).Nodup :=
      (keys_filterMapValues_sublist q2).nodup hnodup2
    have hnS1 : ((List.insertionSort keyLE
        (q1.filterMap (fun e => e.2.map (fun v => (e.1, v))))).map Prod.fst).Nodup :=
      (((List.perm_insertionSort keyLE _).map Prod.fst).nodup_iff).mpr hnE1
    have hnS2 : ((List.insertionSort keyLE
        (q2.filterMap (fun e => e.2.map (fun v => (e.1, v))))).map Prod.fst).Nodup :=
      (((List.perm_insertionSort keyLE _).map Prod.fst).nodup_iff).mpr hnE2
    have hp12 : (List.insertionSort keyLE
        (q1.filterMap (fun e => e.2.map (fun v => (e.1, v))))).Perm
        (List.insertionSort keyLE (q2.filterMap (fun e => e.2.map (fun v => (e.1, v))))) :=
      (List.perm_insertionSort keyLE _).trans
        (hpermE.trans (List.perm_insertionSort keyLE _).symm)
    have := List.eq_of_perm_of_sorted hp12
      (sorted_keyLT_of_nodup _ hs1 hnS1) (sorted_keyLT_of_nodup _ hs2 hnS2)
    rw [this]
  refine ⟨hser, ?_⟩
  unfold pullsCacheKey buildCacheKey
  simp [hser]

/-- The cache key of the pulls endpoint in prefix-plus-serialization form. -/
theorem pullsCacheKey_eq (userId owner repo : String)
    (q : List (String × Option QVal)) :
    pullsCacheKey userId owner repo q =
      ("pulls" ++ "::" ++ userId ++ "::" ++ owner ++ "::" ++ repo ++ "::") ++
        serializeQuery q := by
  unfold pullsCacheKey buildCacheKey qvalToString
  simp [String.intercalate, String.intercalate.go, String.append_assoc]

/-- Appending to a fixed prefix is injective on strings. -/
theorem stringAppend_right_inj (p s t : String) (h : p ++ s = p ++ t) : s = t := by
  have hd := congrArg String.data h
  rw [String.data_append, String.data_append] at hd
  have hst := List.append_cancel_left hd
  cases s with
  | mk ls =>
    cases t with
    | mk lt => exact congrArg String.mk hst

/-- Claim C4, sensitivity half: two requests that differ only in the value
of one query parameter produce different canonical serializations, hence
different cache keys and independent cache entries (query objects carry
each key at most once). -/
theorem cacheKey_value_sensitive (userId owner repo : String)
    (pre post : List (String × Option QVal)) (k : String) (v1 v2 : QVal)
    (hne : v1 ≠ v2)
    (hnodup : ((pre ++ (k, some v1) :: post).map Prod.fst).Nodup) :
    serializeQuery (pre ++ (k, some v1) :: post) ≠
      serializeQuery (pre ++ (k, some v2) :: post) ∧
    pullsCacheKey userId owner repo (pre ++ (k, some v1) :: post) ≠
      pullsCacheKey userId owner repo (pre ++ (k, some v2) :: post) := by
  have hsplit : (pre ++ (k, some v1) :: post).map Prod.fst =
      pre.map Prod.fst ++ k :: post.map Prod.fst := by simp
  rw [hsplit] at hnodup
  have hkpre : k ∉ pre.map Prod.fst := by
    intro hk
    exact (List.disjoint_of_nodup_append hnodup) hk (by simp)
  have hkpost : k ∉ post.map Prod.fst := by
    have hn := (List.nodup_append.mp hnodup).2.1
    intro hk
    exact (List.nodup_cons.mp hn).1 hk
  have hser : serializeQuery (pre ++ (k, some v1) :: post) ≠
      serializeQuery (pre ++ (k, some v2) :: post) := by
    intro h
    have hE1 : (pre ++ (k, some v1) :: post).filterMap
        (fun e => e.2.map (fun v => (e.1, v))) =
        pre.filterMap (fun e => e.2.map (fun v => (e.1, v))) ++ (k, v1) ::
          post.filterMap (fun e => e.2.map (fun v => (e.1, v))) := by
      rw [List.filterMap_append, List.filterMap_cons]
      rfl
    have hE2 : (pre ++ (k, some v2) :: post).filterMap
        (fun e => e.2.map (fun v => (e.1, v))) =
        pre.filterMap (fun e => e.2.map (fun v => (e.1, v))) ++ (k, v2) ::
          post.filterMap (fun e => e.2.map (fun v => (e.1, v))) := by
      rw [List.filterMap_append, List.filterMap_cons]
      rfl
    have hkeys : ((pre ++ (k, some v1) :: post).filterMap
          (fun e => e.2.map (fun v => (e.1, v)))).map Prod.fst =
        ((pre ++ (k, some v2) :: post).filterMap
          (fun e => e.2.map (fun v => (e.1, v)))).map Prod.fst := by
      rw [hE1, hE2]
      simp
    have hsk : (List.insertionSort keyLE ((pre ++ (k, some v1) :: post).filterMap
          (fun e => e.2.map (fun v => (e.1, v))))).map Prod.fst =
        (List.insertionSort keyLE ((pre ++ (k, some v2) :: post).filterMap
          (fun e => e.2.map (fun v => (e.1, v))))).map Prod.fst := by
      rw [map_fst_insertionSort, map_fst_insertionSort, hkeys]
    simp only [serializeQuery] at h
    have hEq := jsonStringifyObj_inj _ _ hsk (congrArg String.data h)
    have hperm12 : ((pre ++ (k, some v1) :: post).filterMap
        (fun e => e.2.map (fun v => (e.1, v)))).Perm
        ((pre ++ (k, some v2) :: post).filterMap
        (fun e => e.2.map (fun v => (e.1, v)))) :=
      (List.perm_insertionSort keyLE _).symm.trans
        (hEq ▸ List.perm_insertionSort keyLE _)
    have hmem : (k, v1) ∈ (pre ++ (k, some v2) :: post).filterMap
        (fun e => e.2.map (fun v => (e.1, v))) := by
      refine hperm12.subset ?_
      rw [hE1]
      simp
    rw [hE2] at hmem
    rcases List.mem_append.mp hmem with hF | hCG
    · have hkF : k ∈ (pre.filterMap (fun e => e.2.map (fun v => (e.1, v)))).map Prod.fst :=
        List.mem_map_of_mem Prod.fst hF
      exact hkpre ((keys_filterMapValues_sublist pre).subset hkF)
    · rcases List.mem_cons.mp hCG with hEqv | hG
      · exact hne (congrArg Prod.snd hEqv)
      · have hkG : k ∈ (post.filterMap (fun e => e.2.map (fun v => (e.1, v)))).map Prod.fst :=
          List.mem_map_of_mem Prod.fst hG
        exact hkpost ((keys_filterMapValues_sublist post).subset hkG)
  refine ⟨hser, ?_⟩
  intro h
  apply hser
  rw [pullsCacheKey_eq, pullsCacheKey_eq] at h
  exact stringAppend_right_inj _ _ _ h

/-- Claim C4: for any two gateway requests from the same identity to the
same endpoint whose validated query parameters are equal as a set of
key/value pairs, the constructed cache keys are equal regardless of the
parameters' arrival order (the key joins the namespace tag, the identity
and a canonical JSON string of the sorted non-empty parameters); and two
requests differing only in the value of one query parameter produce
different cache keys, hence independent cache entries. -/
theorem C4_cache_key_canonicalization (userId owner repo : String) :
    (∀ (q1 q2 : List (String × Option QVal)), q1.Perm q2 →
      (q1.map Prod.fst).Nodup →
      serializeQuery q1 = serializeQuery q2 ∧
      pullsCacheKey userId owner repo q1 = pullsCacheKey userId owner repo q2) ∧
    (∀ (pre post : List (String × Option QVal)) (k : String) (v1 v2 : QVal),
      v1 ≠ v2 → ((pre ++ (k, some v1) :: post).map Prod.fst).Nodup →
      serializeQuery (pre ++ (k, some v1) :: post) ≠
        serializeQuery (pre ++ (k, some v2) :: post) ∧
      pullsCacheKey userId owner repo (pre ++ (k, some v1) :: post) ≠
        pullsCacheKey userId owner repo (pre ++ (k, some v2) :: post)) :=
  ⟨fun q1 q2 hp hn => cacheKey_perm_invariant userId owner repo q1 q2 hp hn,
   fun pre post k v1 v2 hne hn =>
     cacheKey_value_sensitive userId owner repo pre post k v1 v2 hne hn⟩

/-- Claim C4 witness: a two-parameter query serialized in either arrival
order yields one cache key, and changing one value changes the key. -/
theorem C4_witness :
    pullsCacheKey "u1" "acme" "widgets"
        [("state", some (QVal.str "open")), ("page", some (QVal.num 2))] =
      pullsCacheKey "u1" "acme" "widgets"
        [("page", some (QVal.num 2)), ("state", some (QVal.str "open"))] ∧
    pullsCacheKey "u1" "acme" "widgets"
        [("state", some (QVal.str "open")), ("page", some (QVal.num 2))] ≠
      pullsCacheKey "u1" "acme" "widgets"
        [("state", some (QVal.str "open")), ("page", some (QVal.num 3))] := by
  constructor
  · exact ((C4_cache_key_canonicalization "u1" "acme" "widgets").1 _ _
      (List.Perm.swap _ _ _) (by decide)).2
  · exact ((C4_cache_key_canonicalization "u1" "acme" "widgets").2
      [("state", some (QVal.str "open"))] [] "page" (QVal.num 2) (QVal.num 3)
      (by decide) (by decide)).2

end GitConnect
